import Mathlib

/-!
Verification of the BSON encoder / decoder of src/pycomba/gbbs/bson.py.

The module is shallowly embedded: Python byte strings are lists of
naturals (each below 256), Python values relevant to the codec are an
inductive type PyVal, fallible Python code returns Except Err, and the
unbounded recursions of the source (value-tree recursion in the encoder,
buffer recursion in the decoder) are driven by an explicit fuel argument
that mirrors the call stack; exhausting the fuel yields Err.recursionError,
the analogue of the Python RecursionError.  Wrappers supply fuel that is
large enough for every input actually reachable from the source entry
points, and all universally quantified theorems are stated for every fuel,
conditioned on the computation succeeding, so no fuel-adequacy argument is
ever needed.

Modelling notes, each tied to the source:
- floats are modelled by their 64-bit IEEE-754 bit pattern: pack and
  unpack with format d move exactly those 8 bytes;
- str values are lists of Unicode code points; encode and decode with
  the utf8 codec are modelled by utf8EncodeE / utf8DecodeE below;
- Decimal values are modelled by their as_tuple data: a sign, a
  coefficient (a natural number) and an integer exponent, restricted to
  finite decimals; arithmetic on them in decimal2bson / bson2decimal is
  carried out, as in the source, under the default decimal context:
  28 significant digits, rounding half to even (decMant below); the
  context exponent limits (about ten to the millionth) are not modelled;
- datetime values are modelled as UTC-aware instants (seconds since the
  epoch plus microseconds); datetime2timestamp is called by the source
  with its default trunc_to_seconds=True, so it returns the whole seconds;
  the float division by 1000 in bson2datetime is exact on every multiple
  of 1000 produced by the encoder and is modelled by integer division;
- the transformer fallback chain of BSONEncoder is not modelled: every
  entry point studied here uses an empty transformer list, under which
  _encode_obj falls through directly to the unable-to-encode ValueError;
- recreators are modelled as pure functions from the decoded mapping to a
  Python value; the source tests the returned object for truthiness.
-/

/-- Byte strings: lists of naturals, each below 256 by construction. -/
abbrev Bytes := List Nat

/-- Python strings: lists of Unicode code points. -/
abbrev PyStr := List Nat

/-- Errors raised by the source, one constructor per raise site kind:
TypeError in BSONEncoder.encode (invalidRoot), ValueError in _encode_obj
(unsupportedType), OverflowError in decimal2bson (overflow), struct.error
from pack / unpack (structError), ValueError in check_end_zero
(malformedDocument), ValueError in _get_parser (unknownTypeCode),
ValueError in _decode_binary (unknownBinarySubtype), UnicodeEncodeError /
UnicodeDecodeError (unicodeError), KeyError escaping _get_decoder
(keyError), ValueError in the UUID constructor or TypeError in ord, as
well as the AssertionError of an encode function applied to a value of
the wrong type, unreachable through the type-keyed dispatch
(valueError), and RecursionError for the unbounded recursions cut off by
fuel. -/
inductive Err where
  | invalidRoot
  | unsupportedType
  | overflow
  | structError
  | malformedDocument
  | unknownTypeCode
  | unknownBinarySubtype
  | unicodeError
  | keyError
  | valueError
  | recursionError
  deriving DecidableEq, Repr

/-- Little-endian bytes of a natural number, w bytes wide. -/
def natToLE (w : Nat) (n : Nat) : Bytes :=
  (List.range w).map fun i => n / 256 ^ i % 256

/-- Natural number denoted by little-endian bytes. -/
def leNat (b : Bytes) : Nat :=
  b.foldr (fun x a => x + 256 * a) 0

/-- Two-complement reading of an unsigned 32-bit value. -/
def toSigned32 (n : Nat) : Int :=
  if n < 2147483648 then (n : Int) else (n : Int) - 4294967296

/-- Two-complement reading of an unsigned 64-bit value. -/
def toSigned64 (n : Nat) : Int :=
  if n < 9223372036854775808 then (n : Int) else (n : Int) - 18446744073709551616

/-- Two-complement reading of an unsigned byte. -/
def toSigned8 (n : Nat) : Int :=
  if n < 128 then (n : Int) else (n : Int) - 256

/-- Model of pack with format i: fails with struct.error unless the value
fits in a signed 32-bit integer. -/
def packI32 (n : Int) : Except Err Bytes :=
  if -2147483648 ≤ n ∧ n < 2147483648 then
    .ok (natToLE 4 (n % 4294967296).toNat)
  else .error .structError

/-- Model of pack with format q: fails with struct.error unless the value
fits in a signed 64-bit integer. -/
def packI64 (n : Int) : Except Err Bytes :=
  if -9223372036854775808 ≤ n ∧ n < 9223372036854775808 then
    .ok (natToLE 8 (n % 18446744073709551616).toNat)
  else .error .structError

/-- Model of unpack_i32 applied to buf sliced to its first four bytes:
struct.error when fewer than four bytes are available. -/
def unpackI32From (b : Bytes) : Except Err Int :=
  if b.length < 4 then .error .structError
  else .ok (toSigned32 (leNat (b.take 4)))

/-- Python index normalisation for a slice bound on a sequence of length
n: negative indices count from the end and everything is clamped. -/
def pyIdx (n : Nat) (i : Int) : Nat :=
  if i < 0 then n - (-i).toNat else min i.toNat n

/-- Python slice l[a:b] with integer bounds. -/
def pySlice {α : Type} (l : List α) (a b : Int) : List α :=
  (l.take (pyIdx l.length b)).drop (pyIdx l.length a)

/-- Python slice l[a:] with an integer bound. -/
def pyDropFrom {α : Type} (l : List α) (a : Int) : List α :=
  l.drop (pyIdx l.length a)

/-- Valid Unicode scalar values: the code points Python can utf-8 encode
(below 0x110000 and not a surrogate). -/
def validScalar (c : Nat) : Bool :=
  c < 1114112 && (c < 55296 || 57344 ≤ c)

/-- Bytes of one code point under the utf-8 codec. -/
def utf8EncodeChar (c : Nat) : Bytes :=
  if c < 128 then [c]
  else if c < 2048 then [192 + c / 64, 128 + c % 64]
  else if c < 65536 then [224 + c / 4096, 128 + c / 64 % 64, 128 + c % 64]
  else [240 + c / 262144, 128 + c / 4096 % 64, 128 + c / 64 % 64, 128 + c % 64]

/-- Model of str.encode applied with the utf8 codec: UnicodeEncodeError on
surrogates or out-of-range code points. -/
def utf8EncodeE (s : PyStr) : Except Err Bytes :=
  if s.all validScalar then .ok ((s.map utf8EncodeChar).flatten)
  else .error .unicodeError

/-- Continuation byte test for the strict utf-8 decoder. -/
def contB (b : Nat) : Bool := 128 ≤ b && b < 192

/-- Strict utf-8 decoding of a byte string into code points, rejecting
truncated, overlong, surrogate and out-of-range sequences, as the Python
strict utf8 codec does. -/
def utf8Decode : Bytes → Option PyStr
  | [] => some []
  | b :: r =>
    if b < 128 then (utf8Decode r).map fun s => b :: s
    else
      match r with
      | [] => none
      | b1 :: r1 =>
        if b < 224 then
          if 194 ≤ b && b < 224 && contB b1 then
            (utf8Decode r1).map fun s => ((b - 192) * 64 + (b1 - 128)) :: s
          else none
        else
          match r1 with
          | [] => none
          | b2 :: r2 =>
            if b < 240 then
              if 224 ≤ b && contB b1 && contB b2 &&
                  (2048 ≤ (b - 224) * 4096 + (b1 - 128) * 64 + (b2 - 128)) &&
                  ((b - 224) * 4096 + (b1 - 128) * 64 + (b2 - 128) < 55296 ||
                    57344 ≤ (b - 224) * 4096 + (b1 - 128) * 64 + (b2 - 128)) then
                (utf8Decode r2).map fun s =>
                  ((b - 224) * 4096 + (b1 - 128) * 64 + (b2 - 128)) :: s
              else none
            else
              match r2 with
              | [] => none
              | b3 :: r3 =>
                if b < 245 && contB b1 && contB b2 && contB b3 &&
                    (65536 ≤ (b - 240) * 262144 + (b1 - 128) * 4096 +
                      (b2 - 128) * 64 + (b3 - 128)) &&
                    ((b - 240) * 262144 + (b1 - 128) * 4096 +
                      (b2 - 128) * 64 + (b3 - 128) < 1114112) then
                  (utf8Decode r3).map fun s =>
                    ((b - 240) * 262144 + (b1 - 128) * 4096 +
                      (b2 - 128) * 64 + (b3 - 128)) :: s
                else none

/-- Model of bytes.decode applied with the utf8 codec. -/
def utf8DecodeE (b : Bytes) : Except Err PyStr :=
  match utf8Decode b with
  | some s => .ok s
  | none => .error .unicodeError

/-- Python values handled by the codec.  Containers are dict (ordered
string-keyed mappings), list and tuple.  float carries the 64-bit IEEE
bit pattern, decimal carries the as_tuple data of a finite Decimal,
datetime is a UTC-aware instant, and other stands for an object of any
further type (a set, a Fraction, ...), for which no default encoder
exists. -/
inductive PyVal where
  | none
  | bool (b : Bool)
  | int (n : Int)
  | float (bits : Nat)
  | str (s : PyStr)
  | bytes (bs : Bytes)
  | uuid (bs : Bytes)
  | datetime (sec : Int) (usec : Nat)
  | decimal (sign : Bool) (coeff : Nat) (exp : Int)
  | dict (kvs : List (PyStr × PyVal))
  | list (xs : List PyVal)
  | tuple (xs : List PyVal)
  | other (id : Nat)

/-- Runtime type of a value, the key space of the encoder maps (type(obj)
in _get_encoder). -/
inductive PyKind where
  | noneK | boolK | intK | floatK | strK | bytesK | uuidK | datetimeK
  | decimalK | dictK | listK | tupleK | otherK
  deriving DecidableEq, BEq, Repr

/-- Runtime type of a modelled value. -/
def pyKind : PyVal → PyKind
  | .none => .noneK
  | .bool _ => .boolK
  | .int _ => .intK
  | .float _ => .floatK
  | .str _ => .strK
  | .bytes _ => .bytesK
  | .uuid _ => .uuidK
  | .datetime _ _ => .datetimeK
  | .decimal _ _ _ => .decimalK
  | .dict _ => .dictK
  | .list _ => .listK
  | .tuple _ => .tupleK
  | .other _ => .otherK

/-- Python truthiness of a modelled value: None, False, zero numbers
(including Decimal zero and both float zeros) and empty containers are
falsy, everything else is truthy. -/
def pyTruthy : PyVal → Bool
  | .none => false
  | .bool b => b
  | .int n => n != 0
  | .float bits => !(bits == 0 || bits == 9223372036854775808)
  | .str s => !s.isEmpty
  | .bytes bs => !bs.isEmpty
  | .uuid _ => true
  | .datetime _ _ => true
  | .decimal _ c _ => c != 0
  | .dict kvs => !kvs.isEmpty
  | .list xs => !xs.isEmpty
  | .tuple xs => !xs.isEmpty
  | .other _ => true

/-- Decimal digits of a natural number, most significant first, with the
recursion driven by fuel (the value itself is always enough fuel). -/
def natDigitsF : Nat → Nat → List Nat
  | 0, _ => []
  | fuel + 1, n => if n < 10 then [n] else natDigitsF fuel (n / 10) ++ [n % 10]

/-- Decimal digits of a natural number, most significant first. -/
def natDigits10 (n : Nat) : List Nat := natDigitsF (n + 1) n

/-- Number of decimal digits of a coefficient, as in the digits tuple
returned by Decimal.as_tuple (zero has one digit). -/
def numDigits10 (n : Nat) : Nat := (natDigits10 n).length

/-- Rounding of x / m half to even, the ROUND_HALF_EVEN mode of the
default decimal context. -/
def rhe (x m : Nat) : Nat :=
  let q := x / m
  let r := x % m
  if 2 * r < m then q
  else if m < 2 * r then q + 1
  else if q % 2 = 0 then q else q + 1

/-- Mantissa computed by decimal2bson as int(abs(val) * Decimal(10) **
-exp): the arithmetic runs in the default decimal context and therefore
rounds the coefficient half to even to 28 significant digits whenever it
is longer; the power of ten only shifts the exponent and cancels out. -/
def decMant (c : Nat) : Nat :=
  let d := numDigits10 c
  if d ≤ 28 then c
  else rhe c (10 ^ (d - 28)) * 10 ^ (d - 28)

/-- Base-256 chunks of a natural number, least significant first, with
the recursion driven by fuel (the value itself is always enough fuel);
this is the while-mant loop of decimal2bson. -/
def chunksLEF : Nat → Nat → List Nat
  | 0, _ => []
  | fuel + 1, m => if m = 0 then [] else m % 256 :: chunksLEF fuel (m / 256)

/-- Base-256 chunks of a natural number, least significant first. -/
def chunksLE (m : Nat) : List Nat := chunksLEF m m

/-- Model of pack with format Bb applied to the as_tuple sign (always 0
or 1, hence a Bool here) and the exponent: the struct.error raised when
the exponent does not fit a signed byte is caught by decimal2bson and
re-raised as OverflowError, so it is modelled as Err.overflow directly. -/
def packBb (sign : Bool) (e : Int) : Except Err Bytes :=
  if -128 ≤ e ∧ e ≤ 127 then .ok [if sign then 1 else 0, (e % 256).toNat]
  else .error .overflow

/-- Model of decimal2bson on the as_tuple data of a finite Decimal. -/
def decimal2bson (sign : Bool) (c : Nat) (e : Int) : Except Err (Nat × Bytes) :=
  let mant := decMant c
  let chunks := chunksLE mant
  (packBb sign e).bind fun hdr =>
    (packI32 ((hdr ++ chunks.reverse).length : Int)).bind fun p =>
      .ok (5, p ++ [128] ++ hdr ++ chunks.reverse)

/-- Model of int2bson: try a signed 32-bit encoding, then signed 64-bit,
then fall back to decimal2bson applied to Decimal(val). -/
def int2bson (n : Int) : Except Err (Nat × Bytes) :=
  match packI32 n with
  | .ok b => .ok (16, b)
  | .error _ =>
    match packI64 n with
    | .ok b => .ok (18, b)
    | .error _ => decimal2bson (decide (n < 0)) n.natAbs 0

/-- Model of bool2bson. -/
def bool2bson : PyVal → Except Err (Nat × Bytes)
  | .bool b => .ok (8, [if b then 1 else 0])
  | _ => .error .valueError

/-- Model of bytes2bson. -/
def bytes2bson : PyVal → Except Err (Nat × Bytes)
  | .bytes bs => (packI32 (bs.length : Int)).bind fun p => .ok (5, p ++ [0] ++ bs)
  | _ => .error .valueError

/-- Model of datetime2bson: datetime2timestamp is called with its default
trunc_to_seconds=True and returns the whole UTC seconds, so the encoded
milliseconds are sec * 1000 and the microseconds are dropped. -/
def datetime2bson : PyVal → Except Err (Nat × Bytes)
  | .datetime sec _ => (packI64 (sec * 1000)).bind fun p => .ok (9, p)
  | _ => .error .valueError

/-- Dispatch of decimal2bson on a PyVal. -/
def decimal2bsonV : PyVal → Except Err (Nat × Bytes)
  | .decimal s c e => decimal2bson s c e
  | _ => .error .valueError

/-- Model of float2bson: pack with format d writes the 8 bytes of the
IEEE-754 double, modelled at the bit level. -/
def float2bson : PyVal → Except Err (Nat × Bytes)
  | .float bits => .ok (1, natToLE 8 (bits % 18446744073709551616))
  | _ => .error .valueError

/-- Dispatch of int2bson on a PyVal. -/
def int2bsonV : PyVal → Except Err (Nat × Bytes)
  | .int n => int2bson n
  | _ => .error .valueError

/-- Model of none2bson. -/
def none2bson : PyVal → Except Err (Nat × Bytes)
  | .none => .ok (10, [])
  | _ => .error .valueError

/-- Model of string2bson. -/
def string2bson : PyVal → Except Err (Nat × Bytes)
  | .str s =>
    (utf8EncodeE s).bind fun b =>
      (packI32 ((b.length : Int) + 1)).bind fun p => .ok (2, p ++ b ++ [0])
  | _ => .error .valueError

/-- Model of uuid2bson. -/
def uuid2bson : PyVal → Except Err (Nat × Bytes)
  | .uuid bs => (packI32 (bs.length : Int)).bind fun p => .ok (5, p ++ [4] ++ bs)
  | _ => .error .valueError

/-- Model of _dflt_encoder_map: the kinds with a built-in encode
function; dict, list and tuple are absent, as in the source, because
_encode_obj handles them before any lookup. -/
def dfltEncoderFor : PyKind → Option (PyVal → Except Err (Nat × Bytes))
  | .boolK => some bool2bson
  | .bytesK => some bytes2bson
  | .datetimeK => some datetime2bson
  | .decimalK => some decimal2bsonV
  | .floatK => some float2bson
  | .intK => some int2bsonV
  | .noneK => some none2bson
  | .strK => some string2bson
  | .uuidK => some uuid2bson
  | _ => Option.none

/-- Configuration of a BSONEncoder: the user-supplied encoder map (the
transformer list of the source is empty at every entry point modelled
here, see the header). -/
structure EncCfg where
  encoders : List (PyKind × (PyVal → Except Err (Nat × Bytes)))

/-- Model of BSONEncoder._get_encoder: the per-instance map (a copy of
the user map) is consulted first, the shared default map second. -/
def getEncoder (cfg : EncCfg) (k : PyKind) : Option (PyVal → Except Err (Nat × Bytes)) :=
  match List.lookup k cfg.encoders with
  | some f => some f
  | none => dfltEncoderFor k

/-- Serialisation of one element: tag byte, name bytes, a NUL, then the
payload, as assembled in _encode_elems. -/
def elemChunk (tag : Nat) (nameBytes : Bytes) (payload : Bytes) : Bytes :=
  tag :: (nameBytes ++ 0 :: payload)

/-- Framing done at the end of _encode_elems: a 4-byte length prefix
counting itself and the final terminator byte, the concatenated element
chunks, and the terminator. -/
def frameElems (chunks : List Bytes) : Except Err Bytes :=
  (packI32 (((chunks.map List.length).sum : Int) + 5)).bind fun p =>
    .ok (p ++ chunks.flatten ++ [0])

/-- Element chunks of a dict, in items order: the loop body of
_encode_elems for a mapping, with enc standing for the recursive call to
_encode_obj one level deeper. -/
def encodeDictChunks (enc : PyVal → Except Err (Nat × Bytes)) :
    List (PyStr × PyVal) → Except Err (List Bytes)
  | [] => .ok []
  | (k, v) :: rest =>
    (utf8EncodeE k).bind fun nb =>
      (enc v).bind fun tp =>
        (encodeDictChunks enc rest).bind fun l =>
          .ok (elemChunk tp.1 nb tp.2 :: l)

/-- Element chunks of a list or tuple: the loop body of _encode_elems
over enumerate(obj), the names being the decimal digits of the index. -/
def encodeListChunks (enc : PyVal → Except Err (Nat × Bytes)) :
    Nat → List PyVal → Except Err (List Bytes)
  | _, [] => .ok []
  | i, v :: rest =>
    (enc v).bind fun tp =>
      (encodeListChunks enc (i + 1) rest).bind fun l =>
        .ok (elemChunk tp.1 ((natDigits10 i).map (· + 48)) tp.2 :: l)

/-- Model of BSONEncoder._encode_obj, with fuel standing for the Python
call stack: mappings and sequences are handled before any table lookup,
scalars dispatch through _get_encoder, and with the empty transformer
list a missing encoder is the unable-to-encode ValueError. -/
def encodeObjF (cfg : EncCfg) : Nat → PyVal → Except Err (Nat × Bytes)
  | 0, _ => .error .recursionError
  | fuel + 1, v =>
    match v with
    | .dict kvs =>
      (encodeDictChunks (encodeObjF cfg fuel) kvs).bind fun cs =>
        (frameElems cs).bind fun b => .ok (3, b)
    | .list xs =>
      (encodeListChunks (encodeObjF cfg fuel) 0 xs).bind fun cs =>
        (frameElems cs).bind fun b => .ok (4, b)
    | .tuple xs =>
      (encodeListChunks (encodeObjF cfg fuel) 0 xs).bind fun cs =>
        (frameElems cs).bind fun b => .ok (4, b)
    | w =>
      match getEncoder cfg (pyKind w) with
      | some f => f w
      | Option.none => .error .unsupportedType

/-- Call-stack budget of the wrappers, mirroring the CPython recursion
limit (sys.getrecursionlimit() defaults to 1000): one unit per nesting
level; all quantified theorems below hold for every fuel, so nothing
depends on this constant. -/
def pyStackLimit : Nat := 1000

/-- Model of BSONEncoder.encode up to the final stream write: a bare list
or tuple at the root raises TypeError, anything else is fully assembled
in memory by _encode_obj (the returned tag byte is discarded) and the
resulting chunk is what the single stream.write call emits. -/
def encodeTop (cfg : EncCfg) (v : PyVal) : Except Err Bytes :=
  match v with
  | .list _ => .error .invalidRoot
  | .tuple _ => .error .invalidRoot
  | w => (encodeObjF cfg pyStackLimit w).bind fun tc => .ok tc.2

/-- Model of BSONEncoder.encode acting on a sink: the sink is the list of
write calls it has received; the single write happens only after the
whole document has been assembled, and the call returns the written byte
count. -/
def encodeRun (cfg : EncCfg) (v : PyVal) (sink : List Bytes) :
    List Bytes × Except Err Nat :=
  match encodeTop cfg v with
  | .error e => (sink, .error e)
  | .ok chunk => (sink ++ [chunk], .ok chunk.length)

/-- Configuration of the module-level dump / dumps helpers: a plain
BSONEncoder(). -/
def dfltEncCfg : EncCfg := ⟨[]⟩

/-- Model of dumps: encode with a default BSONEncoder into a fresh
BytesIO and return its contents. -/
def dumps (v : PyVal) : Except Err Bytes := encodeTop dfltEncCfg v

/-- Model of bson2bytes. -/
def bson2bytes (bval : Bytes) : Except Err PyVal := .ok (.bytes bval)

/-- Model of bson2bool: ord demands exactly one byte. -/
def bson2bool (bval : Bytes) : Except Err PyVal :=
  match bval with
  | [x] => .ok (.bool (x != 0))
  | _ => .error .valueError

/-- Model of bson2datetime: unpack with format q demands exactly eight
bytes; the source divides the milliseconds by the float 1000.0 and
timestamp2datetime floors the result to whole seconds, which on every
encoder-produced value (a multiple of 1000 within the datetime range) is
exactly the flooring integer division modelled here; the decoded value
carries microsecond 0 (round(0, -3)) and the UTC timezone. -/
def bson2datetime (bval : Bytes) : Except Err PyVal :=
  if bval.length = 8 then
    .ok (.datetime (Int.fdiv (toSigned64 (leNat bval)) 1000) 0)
  else .error .structError

/-- Model of bson2decimal: read the sign byte and the signed exponent
byte (unpack with format Bb demands two bytes), fold the remaining bytes
big-endian into the mantissa; a negative exponent yields a Decimal built
by context arithmetic (rounding the mantissa half to even to 28
significant digits when longer, as Decimal(mant) * Decimal(10) ** exp
does), a non-negative exponent yields a plain int computed exactly. -/
def bson2decimal (bval : Bytes) : Except Err PyVal :=
  if bval.length < 2 then .error .structError
  else
    let s := bval.headI
    let e := toSigned8 (bval.tail.headI)
    let mant := (bval.drop 2).foldl (fun a b => a * 256 + b) 0
    if e < 0 then
      let d := numDigits10 mant
      if d ≤ 28 then .ok (.decimal (s % 2 = 1) mant e)
      else .ok (.decimal (s % 2 = 1) (rhe mant (10 ^ (d - 28))) (e + (d - 28)))
    else
      .ok (.int ((if s % 2 = 0 then 1 else -1) * (mant : Int) * 10 ^ e.toNat))

/-- Model of bson2float, at the bit level. -/
def bson2float (bval : Bytes) : Except Err PyVal :=
  if bval.length = 8 then .ok (.float (leNat bval))
  else .error .structError

/-- Model of bson2int: unpack with format q demands exactly eight bytes;
on struct.error the source retries with format i, which demands exactly
four. -/
def bson2int (bval : Bytes) : Except Err PyVal :=
  if bval.length = 8 then .ok (.int (toSigned64 (leNat bval)))
  else if bval.length = 4 then .ok (.int (toSigned32 (leNat bval)))
  else .error .structError

/-- Model of bson2none. -/
def bson2none (_ : Bytes) : Except Err PyVal := .ok .none

/-- Model of bson2string. -/
def bson2string (bval : Bytes) : Except Err PyVal :=
  (utf8DecodeE bval).bind fun s => .ok (.str s)

/-- Model of bson2uuid: the UUID constructor demands exactly sixteen
bytes. -/
def bson2uuid (bval : Bytes) : Except Err PyVal :=
  if bval.length = 16 then .ok (.uuid bval) else .error .valueError

/-- Model of _dflt_decoder_map restricted to its leaf entries (the three
structural entries of the per-instance map, for tags 3, 4 and 5, are the
bound methods handled in decodeVal below). -/
def dfltLeafDecoder (code : Bytes) : Option (Bytes → Except Err PyVal) :=
  if code = [8] then some bson2bool
  else if code = [5, 0] then some bson2bytes
  else if code = [5, 4] then some bson2uuid
  else if code = [5, 128] then some bson2decimal
  else if code = [9] then some bson2datetime
  else if code = [1] then some bson2float
  else if code = [16] then some bson2int
  else if code = [18] then some bson2int
  else if code = [10] then some bson2none
  else if code = [2] then some bson2string
  else Option.none

/-- Configuration of a BSONDecoder: the user-supplied decoder map (keyed
by tag bytes, or tag plus subtype bytes for binary) and the recreator
list. -/
structure DecCfg where
  decoders : List (Bytes × (Bytes → Except Err PyVal))
  recreators : List (List (PyStr × PyVal) → PyVal)

/-- Model of _get_decoder for non-structural codes: the per-instance map
holds the user entries (its entries for the one-byte codes 3, 4 and 5
are the bound methods installed by the constructor after the user update,
handled separately in decodeVal), and the shared default map is consulted
on a miss. -/
def getLeafDecoder (cfg : DecCfg) (code : Bytes) : Option (Bytes → Except Err PyVal) :=
  match List.lookup code cfg.decoders with
  | some f => some f
  | none => dfltLeafDecoder code

/-- Model of check_end_zero: ValueError unless the last byte exists and
is zero (an empty buffer fails, since its final one-byte slice is empty). -/
def checkEndZero (buf : Bytes) : Except Err Unit :=
  if buf.getLast? = some 0 then .ok () else .error .malformedDocument

/-- Model of _parse_cstr: scan for the first zero byte, utf-8 decode the
prefix into the name and drop the separator; when no zero is present the
source takes buf[:-1] as the name bytes and leaves buf unconsumed. -/
def parseCstr (buf : Bytes) : Except Err (PyStr × Bytes) :=
  match buf.findIdx? (fun b => b == 0) with
  | some i => (utf8DecodeE (buf.take i)).bind fun s => .ok (s, buf.drop (i + 1))
  | none => (utf8DecodeE buf.dropLast).bind fun s => .ok (s, buf)

/-- Model of _parse_fixed_length. -/
def parseFixed (n : Nat) (buf : Bytes) : Except Err (Bytes × Bytes) :=
  .ok (buf.take n, buf.drop n)

/-- Model of _parse_string: length prefix, payload whose last byte must
be zero, and the rest of the buffer, with Python slice semantics. -/
def parseString (buf : Bytes) : Except Err (Bytes × Bytes) :=
  (unpackI32From buf).bind fun n =>
    (checkEndZero (pySlice buf 4 (n + 4))).bind fun _ =>
      .ok ((pySlice buf 4 (n + 4)).dropLast, pyDropFrom buf (n + 4))

/-- Model of _parse_binary: length prefix, then the subtype byte plus the
payload, with Python slice semantics. -/
def parseBinary (buf : Bytes) : Except Err (Bytes × Bytes) :=
  (unpackI32From buf).bind fun n =>
    .ok (pySlice buf 4 (n + 5), pyDropFrom buf (n + 5))

/-- Model of _parse_embedded_doc: the declared length covers the prefix
itself; the extracted body must end in the terminator, which is
stripped. -/
def parseEmbeddedDoc (buf : Bytes) : Except Err (Bytes × Bytes) :=
  (unpackI32From buf).bind fun n =>
    (checkEndZero (pySlice buf 4 n)).bind fun _ =>
      .ok ((pySlice buf 4 n).dropLast, pyDropFrom buf n)

/-- Model of _get_parser plus the parse call: the class-level _parser_map
is fixed; an unknown tag byte is the not-supported ValueError raised by
_get_parser. -/
def runParser (code : Bytes) (buf : Bytes) : Except Err (Bytes × Bytes) :=
  if code = [1] then parseFixed 8 buf
  else if code = [2] then parseString buf
  else if code = [3] then parseEmbeddedDoc buf
  else if code = [4] then parseEmbeddedDoc buf
  else if code = [5] then parseBinary buf
  else if code = [8] then parseFixed 1 buf
  else if code = [9] then parseFixed 8 buf
  else if code = [10] then parseFixed 0 buf
  else if code = [16] then parseFixed 4 buf
  else if code = [18] then parseFixed 8 buf
  else .error .unknownTypeCode

/-- Insertion into a Python dict modelled as an ordered association
list: an existing key keeps its position and gets the new value, a new
key is appended. -/
def dictInsert (m : List (PyStr × PyVal)) (k : PyStr) (v : PyVal) :
    List (PyStr × PyVal) :=
  if m.any (fun kv => kv.1 == k) then
    m.map fun kv => if kv.1 == k then (k, v) else kv
  else m ++ [(k, v)]

/-- Python dict built by obj.update from a stream of key-value pairs. -/
def dictUpdate (l : List (PyStr × PyVal)) : List (PyStr × PyVal) :=
  l.foldl (fun m kv => dictInsert m kv.1 kv.2) []

/-- Recreator loop of _decode_obj: each recreator is applied to the
decoded mapping in registration order and the first truthy result is
returned; if none is truthy the mapping itself is the result. -/
def applyRecreators (recs : List (List (PyStr × PyVal) → PyVal))
    (d : List (PyStr × PyVal)) : PyVal :=
  match recs with
  | [] => .dict d
  | r :: rest => if pyTruthy (r d) then r d else applyRecreators rest d

/-- Model of _decode_obj, parameterised by the element decoder (the
recursive _decode_elems one stack level deeper): build the dict from the
decoded elements, then run the recreator loop. -/
def decodeObjCore (cfg : DecCfg)
    (elems : Bytes → Except Err (List (PyStr × PyVal))) (buf : Bytes) :
    Except Err PyVal :=
  (elems buf).bind fun l => .ok (applyRecreators cfg.recreators (dictUpdate l))

/-- Model of _decode_array, parameterised like decodeObjCore: the decoded
values in stream order, the names discarded. -/
def decodeArrayCore (elems : Bytes → Except Err (List (PyStr × PyVal)))
    (buf : Bytes) : Except Err PyVal :=
  (elems buf).bind fun l => .ok (.list (l.map Prod.snd))

/-- Model of _decode_binary: the first byte is the subtype, the two-byte
code tag-plus-subtype is looked up through _get_decoder (user entries
first), and a miss is the not-supported ValueError; on an empty buffer
the source recurses into itself forever (code falls back to the one-byte
binary tag, whose instance-map entry is _decode_binary again), modelled
as the recursion error. -/
def decodeBinary (cfg : DecCfg) (buf : Bytes) : Except Err PyVal :=
  match buf with
  | [] => .error .recursionError
  | s :: rest =>
    match getLeafDecoder cfg [5, s] with
    | some f => f rest
    | Option.none => .error .unknownBinarySubtype

/-- Dispatch step of _decode_elems through _get_decoder: the instance map
entries for the one-byte codes 3, 4 and 5 are the bound methods installed
by the constructor after the user update (so they shadow any user entry
for those codes); every other code goes through the user entries and the
default map, and a miss on both is a bare KeyError. -/
def decodeVal (cfg : DecCfg)
    (elems : Bytes → Except Err (List (PyStr × PyVal)))
    (code : Bytes) (bval : Bytes) : Except Err PyVal :=
  if code = [3] then decodeObjCore cfg elems bval
  else if code = [4] then decodeArrayCore elems bval
  else if code = [5] then decodeBinary cfg bval
  else
    match getLeafDecoder cfg code with
    | some f => f bval
    | Option.none => .error .keyError

/-- Model of _decode_elems, with fuel standing for the Python call stack:
read the tag byte, parse the name cstring, run the tag parser on the
remainder, decode the extracted payload (recursing one level deeper for
documents and arrays) and continue on the rest of the stream. -/
def decodeElemsF (cfg : DecCfg) : Nat → Bytes → Except Err (List (PyStr × PyVal))
  | 0, _ => .error .recursionError
  | fuel + 1, buf =>
    match buf with
    | [] => .ok []
    | c :: r =>
      (parseCstr r).bind fun nr =>
        (runParser [c] nr.2).bind fun pr =>
          (decodeVal cfg (decodeElemsF cfg fuel) [c] pr.1).bind fun v =>
            (decodeElemsF cfg fuel pr.2).bind fun l =>
              .ok ((nr.1, v) :: l)

/-- Model of BSONDecoder.decode: read four bytes, take them as the total
length, read the declared remainder (a negative count makes BytesIO.read
return everything), demand the trailing terminator and decode the body
through _decode_obj. -/
def decodeTop (cfg : DecCfg) (src : Bytes) : Except Err PyVal :=
  (unpackI32From (src.take 4)).bind fun nbytes =>
    let rest := src.drop 4
    let buf := if nbytes - 4 < 0 then rest else rest.take (nbytes - 4).toNat
    (checkEndZero buf).bind fun _ =>
      decodeObjCore cfg (decodeElemsF cfg pyStackLimit) buf.dropLast

/-- Configuration of the module-level load / loads helpers: a plain
BSONDecoder(). -/
def dfltDecCfg : DecCfg := ⟨[], []⟩

/-- Model of loads: decode with a default BSONDecoder from a BytesIO over
the given bytes. -/
def loads (b : Bytes) : Except Err PyVal := decodeTop dfltDecCfg b

theorem natToLE_length (w n : Nat) : (natToLE w n).length = w := by
  simp [natToLE]

theorem natToLE4_eq (n : Nat) :
    natToLE 4 n = [n % 256, n / 256 % 256, n / 65536 % 256, n / 16777216 % 256] := by
  simp [natToLE, List.range_succ]

theorem leNat_natToLE4 (n : Nat) : leNat (natToLE 4 n) = n % 4294967296 := by
  rw [natToLE4_eq]
  simp only [leNat, List.foldr_cons, List.foldr_nil]
  omega

theorem unpackI32From_exact (L : Nat) (r : Bytes) (h : L < 2147483648) :
    unpackI32From (natToLE 4 L ++ r) = .ok (L : Int) := by
  have hlen : (natToLE 4 L).length = 4 := natToLE_length 4 L
  have htake : (natToLE 4 L ++ r).take 4 = natToLE 4 L := by
    rw [List.take_append_of_le_length (by omega), List.take_of_length_le (by omega)]
  unfold unpackI32From
  rw [if_neg (by simp [hlen]), htake, leNat_natToLE4]
  unfold toSigned32
  rw [Nat.mod_eq_of_lt (by omega), if_pos (by omega)]

theorem packI32_nat (L : Nat) (h : L < 2147483648) :
    packI32 (L : Int) = .ok (natToLE 4 L) := by
  unfold packI32
  rw [if_pos (by constructor <;> omega)]
  congr 1
  have : ((L : Int) % 4294967296) = (L : Int) := by omega
  rw [this, Int.toNat_natCast]

theorem validScalar_iff (c : Nat) :
    validScalar c = true ↔ c < 1114112 ∧ (c < 55296 ∨ 57344 ≤ c) := by
  simp [validScalar]

theorem utf8Decode_char1 (c : Nat) (r : Bytes) (h1 : c < 128) :
    utf8Decode (c :: r) = (utf8Decode r).map fun s => c :: s := by
  conv_lhs => rw [utf8Decode.eq_def]
  simp only [if_pos h1]

theorem utf8Decode_char2 (c : Nat) (r : Bytes) (h1 : 128 ≤ c) (h2 : c < 2048) :
    utf8Decode ((192 + c / 64) :: (128 + c % 64) :: r) = (utf8Decode r).map fun s => c :: s := by
  conv_lhs => rw [utf8Decode.eq_def]
  simp only [Nat.reduceLeDiff]
  rw [if_neg (by omega), if_pos (by omega), if_pos (by simp [contB]; omega)]
  have e1 : (192 + c / 64 - 192) * 64 + (128 + c % 64 - 128) = c := by omega
  rw [e1]

theorem utf8Decode_char3 (c : Nat) (r : Bytes) (h1 : 2048 ≤ c) (h2 : c < 65536)
    (h3 : c < 55296 ∨ 57344 ≤ c) :
    utf8Decode ((224 + c / 4096) :: (128 + c / 64 % 64) :: (128 + c % 64) :: r) =
      (utf8Decode r).map fun s => c :: s := by
  conv_lhs => rw [utf8Decode.eq_def]
  simp only [Nat.reduceLeDiff]
  rw [if_neg (by omega), if_neg (by omega), if_pos (by omega), if_pos]
  · have e1 : (224 + c / 4096 - 224) * 4096 + (128 + c / 64 % 64 - 128) * 64 +
        (128 + c % 64 - 128) = c := by omega
    rw [e1]
  · simp only [contB, Bool.and_eq_true, Bool.or_eq_true, decide_eq_true_eq]
    have e1 : (224 + c / 4096 - 224) * 4096 + (128 + c / 64 % 64 - 128) * 64 +
        (128 + c % 64 - 128) = c := by omega
    rw [e1]
    omega

theorem utf8Decode_char4 (c : Nat) (r : Bytes) (h1 : 65536 ≤ c) (h2 : c < 1114112) :
    utf8Decode ((240 + c / 262144) :: (128 + c / 4096 % 64) :: (128 + c / 64 % 64) ::
      (128 + c % 64) :: r) = (utf8Decode r).map fun s => c :: s := by
  conv_lhs => rw [utf8Decode.eq_def]
  simp only [Nat.reduceLeDiff]
  rw [if_neg (by omega), if_neg (by omega), if_neg (by omega), if_pos]
  · have e1 : (240 + c / 262144 - 240) * 262144 + (128 + c / 4096 % 64 - 128) * 4096 +
        (128 + c / 64 % 64 - 128) * 64 + (128 + c % 64 - 128) = c := by omega
    rw [e1]
  · simp only [contB, Bool.and_eq_true, decide_eq_true_eq]
    have e1 : (240 + c / 262144 - 240) * 262144 + (128 + c / 4096 % 64 - 128) * 4096 +
        (128 + c / 64 % 64 - 128) * 64 + (128 + c % 64 - 128) = c := by omega
    rw [e1]
    omega

theorem utf8Decode_encodeChar (c : Nat) (r : Bytes) (hc : validScalar c = true) :
    utf8Decode (utf8EncodeChar c ++ r) = (utf8Decode r).map fun s => c :: s := by
  have hv := (validScalar_iff c).mp hc
  unfold utf8EncodeChar
  by_cases h1 : c < 128
  · rw [if_pos h1]
    exact utf8Decode_char1 c r h1
  · rw [if_neg h1]
    by_cases h2 : c < 2048
    · rw [if_pos h2]
      exact utf8Decode_char2 c r (by omega) h2
    · rw [if_neg h2]
      by_cases h3 : c < 65536
      · rw [if_pos h3]
        exact utf8Decode_char3 c r (by omega) h3 hv.2
      · rw [if_neg h3]
        exact utf8Decode_char4 c r (by omega) hv.1

theorem utf8_roundtrip (s : PyStr) (h : ∀ c ∈ s, validScalar c = true) :
    utf8Decode ((s.map utf8EncodeChar).flatten) = some s := by
  induction s with
  | nil => rfl
  | cons c cs ih =>
    have ihr := ih fun x hx => h x (List.mem_cons_of_mem _ hx)
    simp only [List.map_cons, List.flatten_cons]
    rw [utf8Decode_encodeChar c _ (h c (List.mem_cons_self c cs)), ihr]
    rfl

theorem utf8EncodeE_ok (s : PyStr) (h : ∀ c ∈ s, validScalar c = true) :
    utf8EncodeE s = .ok ((s.map utf8EncodeChar).flatten) := by
  unfold utf8EncodeE
  rw [if_pos (by rw [List.all_eq_true]; exact fun c hc => h c hc)]

theorem utf8DecodeE_roundtrip (s : PyStr) (h : ∀ c ∈ s, validScalar c = true) :
    utf8DecodeE ((s.map utf8EncodeChar).flatten) = .ok s := by
  unfold utf8DecodeE
  rw [utf8_roundtrip s h]

theorem utf8EncodeChar_ne_zero (c : Nat) (hc : c ≠ 0) :
    ∀ b ∈ utf8EncodeChar c, b ≠ 0 := by
  intro b hb
  unfold utf8EncodeChar at hb
  by_cases h1 : c < 128
  · rw [if_pos h1] at hb
    simp only [List.mem_singleton] at hb
    omega
  · rw [if_neg h1] at hb
    by_cases h2 : c < 2048
    · rw [if_pos h2] at hb
      simp only [List.mem_cons, List.mem_singleton, List.not_mem_nil, or_false] at hb
      rcases hb with hb | hb <;> omega
    · rw [if_neg h2] at hb
      by_cases h3 : c < 65536
      · rw [if_pos h3] at hb
        simp only [List.mem_cons, List.not_mem_nil, or_false] at hb
        rcases hb with hb | hb | hb <;> omega
      · rw [if_neg h3] at hb
        simp only [List.mem_cons, List.not_mem_nil, or_false] at hb
        rcases hb with hb | hb | hb | hb <;> omega

theorem utf8Bytes_ne_zero (s : PyStr) (h0 : 0 ∉ s) :
    ∀ b ∈ (s.map utf8EncodeChar).flatten, b ≠ 0 := by
  intro b hb
  rw [List.mem_flatten] at hb
  obtain ⟨l, hl, hbl⟩ := hb
  rw [List.mem_map] at hl
  obtain ⟨c, hcs, rfl⟩ := hl
  exact utf8EncodeChar_ne_zero c (fun hc0 => h0 (hc0 ▸ hcs)) b hbl

theorem findIdx_zero_after (nb : Bytes) (r : Bytes) (h : ∀ b ∈ nb, b ≠ 0) :
    ∀ i : Nat, (nb ++ 0 :: r).findIdx? (fun b => b == 0) i = some (i + nb.length) := by
  induction nb with
  | nil => intro i; simp [List.findIdx?_cons]
  | cons x xs ih =>
    intro i
    have hx : x ≠ 0 := h x (List.mem_cons_self x xs)
    rw [List.cons_append, List.findIdx?_cons]
    rw [if_neg (by simpa using hx)]
    rw [ih (fun b hb => h b (List.mem_cons_of_mem _ hb)) (i + 1)]
    simp only [List.length_cons]
    congr 1
    omega

theorem parseCstr_encoded (k : PyStr) (r : Bytes)
    (hval : ∀ c ∈ k, validScalar c = true) (h0 : 0 ∉ k) :
    parseCstr ((k.map utf8EncodeChar).flatten ++ 0 :: r) = .ok (k, r) := by
  unfold parseCstr
  rw [findIdx_zero_after _ r (utf8Bytes_ne_zero k h0) 0]
  simp only [Nat.zero_add]
  rw [List.take_left]
  rw [← List.drop_drop, List.drop_left]
  rw [utf8DecodeE_roundtrip k hval]
  rfl

theorem bindInvOk {α β : Type} {x : Except Err α} {g : α → Except Err β} {b : β}
    (h : x.bind g = .ok b) : ∃ v, x = .ok v ∧ g v = .ok b := by
  cases x with
  | error e => exact Except.noConfusion h
  | ok v => exact ⟨v, rfl, h⟩

theorem bindOk {α β : Type} (v : α) (g : α → Except Err β) :
    (Except.ok v : Except Err α).bind g = g v := rfl

theorem bindError {α β : Type} (e : Err) (g : α → Except Err β) :
    (Except.error e : Except Err α).bind g = .error e := rfl

theorem encodeDictChunks_ok (enc : PyVal → Except Err (Nat × Bytes))
    (kvs : List (PyStr × PyVal)) (cs : List Bytes)
    (h : encodeDictChunks enc kvs = .ok cs) :
    List.Forall₂ (fun kv c => ∃ nb t p, utf8EncodeE kv.1 = .ok nb ∧
      enc kv.2 = .ok (t, p) ∧ c = elemChunk t nb p) kvs cs := by
  induction kvs generalizing cs with
  | nil =>
    unfold encodeDictChunks at h
    cases h
    exact List.Forall₂.nil
  | cons kv rest ih =>
    obtain ⟨k, v⟩ := kv
    unfold encodeDictChunks at h
    obtain ⟨nb, henc, h⟩ := bindInvOk h
    obtain ⟨tp, hv, h⟩ := bindInvOk h
    obtain ⟨l, hrest, h⟩ := bindInvOk h
    cases h
    exact List.Forall₂.cons ⟨nb, tp.1, tp.2, henc, hv, rfl⟩ (ih l hrest)

theorem encodeListChunks_ok (enc : PyVal → Except Err (Nat × Bytes))
    (i : Nat) (xs : List PyVal) (cs : List Bytes)
    (h : encodeListChunks enc i xs = .ok cs) :
    List.Forall₂ (fun v c => ∃ t p j, enc v = .ok (t, p) ∧
      c = elemChunk t ((natDigits10 j).map (· + 48)) p) xs cs := by
  induction xs generalizing i cs with
  | nil =>
    unfold encodeListChunks at h
    cases h
    exact List.Forall₂.nil
  | cons v rest ih =>
    unfold encodeListChunks at h
    obtain ⟨tp, hv, h⟩ := bindInvOk h
    obtain ⟨l, hrest, h⟩ := bindInvOk h
    cases h
    exact List.Forall₂.cons ⟨tp.1, tp.2, i, hv, rfl⟩ (ih (i + 1) l hrest)

theorem frameElems_ok (cs : List Bytes) (b : Bytes) (h : frameElems cs = .ok b) :
    (cs.map List.length).sum + 5 < 2147483648 ∧
    b = natToLE 4 ((cs.map List.length).sum + 5) ++ cs.flatten ++ [0] ∧
    b.length = (cs.map List.length).sum + 5 := by
  unfold frameElems at h
  obtain ⟨p, hp, h⟩ := bindInvOk h
  cases h
  unfold packI32 at hp
  by_cases hc : -2147483648 ≤ ((cs.map List.length).sum : Int) + 5 ∧
      ((cs.map List.length).sum : Int) + 5 < 2147483648
  · rw [if_pos hc] at hp
    have hlt : (cs.map List.length).sum + 5 < 2147483648 := by omega
    have hv : ((((cs.map List.length).sum : Int) + 5) % 4294967296).toNat =
        (cs.map List.length).sum + 5 := by omega
    cases hp
    refine ⟨hlt, ?_, ?_⟩
    · rw [hv]
    · rw [hv]
      simp [natToLE_length, List.length_flatten]
      omega
  · rw [if_neg hc] at hp
    cases hp

theorem encodeObjF_dict_ok (cfg : EncCfg) (fuel : Nat) (kvs : List (PyStr × PyVal))
    (t : Nat) (b : Bytes) (h : encodeObjF cfg (fuel + 1) (.dict kvs) = .ok (t, b)) :
    t = 3 ∧ ∃ cs, encodeDictChunks (encodeObjF cfg fuel) kvs = .ok cs ∧
      frameElems cs = .ok b := by
  unfold encodeObjF at h
  obtain ⟨cs, hcs, h⟩ := bindInvOk h
  obtain ⟨b2, hb2, h⟩ := bindInvOk h
  cases h
  exact ⟨rfl, cs, hcs, hb2⟩

theorem encodeObjF_list_ok (cfg : EncCfg) (fuel : Nat) (xs : List PyVal)
    (t : Nat) (b : Bytes) (h : encodeObjF cfg (fuel + 1) (.list xs) = .ok (t, b)) :
    t = 4 ∧ ∃ cs, encodeListChunks (encodeObjF cfg fuel) 0 xs = .ok cs ∧
      frameElems cs = .ok b := by
  unfold encodeObjF at h
  obtain ⟨cs, hcs, h⟩ := bindInvOk h
  obtain ⟨b2, hb2, h⟩ := bindInvOk h
  cases h
  exact ⟨rfl, cs, hcs, hb2⟩

theorem dumps_dict_shape (kvs : List (PyStr × PyVal)) (b : Bytes)
    (h : dumps (.dict kvs) = .ok b) :
    ∃ cs, encodeDictChunks (encodeObjF dfltEncCfg 999) kvs = .ok cs ∧
      b = natToLE 4 b.length ++ cs.flatten ++ [0] ∧
      b.length = (cs.map List.length).sum + 5 ∧ b.length < 2147483648 := by
  unfold dumps encodeTop pyStackLimit at h
  obtain ⟨tc, htc, h⟩ := bindInvOk h
  cases h
  obtain ⟨t, c⟩ := tc
  have h1000 : (1000 : Nat) = 999 + 1 := rfl
  rw [h1000] at htc
  obtain ⟨-, cs, hcs, hframe⟩ := encodeObjF_dict_ok dfltEncCfg 999 kvs t c htc
  obtain ⟨hlt, hshape, hlen⟩ := frameElems_ok cs c hframe
  refine ⟨cs, hcs, ?_, ?_, ?_⟩
  · show c = natToLE 4 c.length ++ cs.flatten ++ [0]
    rw [← hlen] at hshape
    exact hshape
  · show c.length = (cs.map List.length).sum + 5
    exact hlen
  · show c.length < 2147483648
    omega

theorem unpackI32From_natToLE (L : Nat) (h : L < 2147483648) :
    unpackI32From (natToLE 4 L) = .ok (L : Int) := by
  have := unpackI32From_exact L [] h
  rwa [List.append_nil] at this

theorem packI32_ok_nat (n : Nat) (pl : Bytes) (h : packI32 (n : Int) = .ok pl) :
    n < 2147483648 ∧ pl = natToLE 4 n := by
  unfold packI32 at h
  by_cases hc : -2147483648 ≤ (n : Int) ∧ (n : Int) < 2147483648
  · rw [if_pos hc] at h
    cases h
    have hn : n < 2147483648 := by omega
    refine ⟨hn, ?_⟩
    congr 1
    omega
  · rw [if_neg hc] at h
    cases h

theorem pySlice_from4 {α : Type} (l : List α) (n : Int) (h0 : 0 ≤ n)
    (hn : (l.length : Int) ≤ n) : pySlice l 4 n = l.drop 4 := by
  unfold pySlice pyIdx
  rw [if_neg (by omega), if_neg (by omega)]
  have h1 : min n.toNat l.length = l.length := by omega
  rw [h1, List.take_length]
  have h2 : min (4 : Int).toNat l.length = min 4 l.length := rfl
  rw [h2]
  rcases Nat.le_total 4 l.length with h4 | h4
  · rw [min_eq_left h4]
  · rw [min_eq_right h4, List.drop_length, List.drop_eq_nil_of_le h4]

theorem pyDropFrom_all {α : Type} (l : List α) (n : Int) (h0 : 0 ≤ n)
    (hn : (l.length : Int) ≤ n) : pyDropFrom l n = [] := by
  unfold pyDropFrom pyIdx
  rw [if_neg (by omega)]
  have h1 : min n.toNat l.length = l.length := by omega
  rw [h1, List.drop_length]

theorem set_append_right {α : Type} (l1 l2 : List α) (i : Nat) (y : α) :
    (l1 ++ l2).set (l1.length + i) y = l1 ++ l2.set i y := by
  induction l1 with
  | nil => simp
  | cons x xs ih =>
    simp only [List.cons_append, List.length_cons]
    rw [show xs.length + 1 + i = (xs.length + i) + 1 from by omega]
    rw [List.set_cons_succ, ih]

theorem decodeTop_reduce (cfg : DecCfg) (L : Nat) (rest0 : Bytes)
    (hL : L < 2147483648) (h4 : 4 ≤ L) (hlen : rest0.length = L - 4) :
    decodeTop cfg (natToLE 4 L ++ rest0) =
      (checkEndZero rest0).bind fun _ =>
        decodeObjCore cfg (decodeElemsF cfg pyStackLimit) rest0.dropLast := by
  unfold decodeTop
  have hl4 : (natToLE 4 L).length = 4 := natToLE_length 4 L
  have htake : (natToLE 4 L ++ rest0).take 4 = natToLE 4 L := by
    rw [List.take_append_of_le_length (by omega), List.take_of_length_le (by omega)]
  have hdrop : (natToLE 4 L ++ rest0).drop 4 = rest0 := by
    rw [List.drop_append_of_le_length (by omega), List.drop_eq_nil_of_le (by omega),
      List.nil_append]
  rw [htake, unpackI32From_natToLE L hL, bindOk, hdrop]
  dsimp only
  rw [if_neg (by omega)]
  have htoNat : ((L : Int) - 4).toNat = rest0.length := by omega
  rw [htoNat, List.take_length]

theorem encodeListChunks_get (enc : PyVal → Except Err (Nat × Bytes))
    (i : Nat) (xs : List PyVal) (cs : List Bytes)
    (h : encodeListChunks enc i xs = .ok cs) :
    cs.length = xs.length ∧ ∀ j, (hj : j < xs.length) → (hj2 : j < cs.length) →
      ∃ tg p, enc (xs.get ⟨j, hj⟩) = .ok (tg, p) ∧
        cs.get ⟨j, hj2⟩ = elemChunk tg ((natDigits10 (i + j)).map (· + 48)) p := by
  induction xs generalizing i cs with
  | nil =>
    unfold encodeListChunks at h
    cases h
    exact ⟨rfl, fun j hj _ => absurd hj (by simp)⟩
  | cons v rest ih =>
    unfold encodeListChunks at h
    obtain ⟨tp, hv, h⟩ := bindInvOk h
    obtain ⟨l, hrest, h⟩ := bindInvOk h
    cases h
    obtain ⟨hlen, hget⟩ := ih (i + 1) l hrest
    refine ⟨by simp [hlen], ?_⟩
    intro j hj hj2
    cases j with
    | zero => exact ⟨tp.1, tp.2, hv, by simp⟩
    | succ j =>
      obtain ⟨tg, p, he, hc⟩ := hget j (by simpa using hj) (by simpa using hj2)
      refine ⟨tg, p, he, ?_⟩
      simpa [show i + 1 + j = i + (j + 1) from by omega] using hc

/-- Claim C5: for every successfully encoded document or array, the
produced payload is a 4-byte little-endian length prefix, followed by the
concatenation of the serialized elements (each one tag byte, then the
cstring of the key, then the payload bytes), followed by a terminator
byte that is always zero, and the encoded length (the value the prefix
denotes) equals 4 plus the sum of the element sizes plus 1. -/
theorem claim_C5_framing :
    (∀ (cfg : EncCfg) (fuel : Nat) (kvs : List (PyStr × PyVal)) (t : Nat) (b : Bytes),
      encodeObjF cfg (fuel + 1) (.dict kvs) = .ok (t, b) →
      t = 3 ∧ ∃ cs : List Bytes,
        List.Forall₂ (fun kv c => ∃ nb tg p, utf8EncodeE kv.1 = .ok nb ∧
          encodeObjF cfg fuel kv.2 = .ok (tg, p) ∧ c = elemChunk tg nb p) kvs cs ∧
        b = natToLE 4 b.length ++ cs.flatten ++ [0] ∧
        b.length = 4 + (cs.map List.length).sum + 1 ∧
        b.getLast? = some 0 ∧ b.length < 2147483648) ∧
    (∀ (cfg : EncCfg) (fuel : Nat) (xs : List PyVal) (t : Nat) (b : Bytes),
      encodeObjF cfg (fuel + 1) (.list xs) = .ok (t, b) →
      t = 4 ∧ ∃ cs : List Bytes,
        (cs.length = xs.length ∧ ∀ j, (hj : j < xs.length) → (hj2 : j < cs.length) →
          ∃ tg p, encodeObjF cfg fuel (xs.get ⟨j, hj⟩) = .ok (tg, p) ∧
            cs.get ⟨j, hj2⟩ = elemChunk tg ((natDigits10 j).map (· + 48)) p) ∧
        b = natToLE 4 b.length ++ cs.flatten ++ [0] ∧
        b.length = 4 + (cs.map List.length).sum + 1 ∧
        b.getLast? = some 0 ∧ b.length < 2147483648) := by
  constructor
  · intro cfg fuel kvs t b h
    obtain ⟨ht, cs, hcs, hframe⟩ := encodeObjF_dict_ok cfg fuel kvs t b h
    obtain ⟨hlt, hshape, hlen⟩ := frameElems_ok cs b hframe
    refine ⟨ht, cs, encodeDictChunks_ok _ kvs cs hcs, ?_, by omega, ?_, by omega⟩
    · rw [hlen]
      exact hshape
    · rw [hshape]
      simp [List.getLast?_append]
  · intro cfg fuel xs t b h
    obtain ⟨ht, cs, hcs, hframe⟩ := encodeObjF_list_ok cfg fuel xs t b h
    obtain ⟨hlt, hshape, hlen⟩ := frameElems_ok cs b hframe
    obtain ⟨hcl, hget⟩ := encodeListChunks_get _ 0 xs cs hcs
    refine ⟨ht, cs, ⟨hcl, ?_⟩, ?_, by omega, ?_, by omega⟩
    · intro j hj hj2
      obtain ⟨tg, p, he, hc⟩ := hget j hj hj2
      exact ⟨tg, p, he, by simpa using hc⟩
    · rw [hlen]
      exact hshape
    · rw [hshape]
      simp [List.getLast?_append]

/-- Witness for C5 at the document with the single field k = 5 and at the
array [7]. -/
theorem claim_C5_framing_witness :
    (∃ cs : List Bytes,
      List.Forall₂ (fun kv c => ∃ nb tg p, utf8EncodeE kv.1 = .ok nb ∧
        encodeObjF dfltEncCfg 9 kv.2 = .ok (tg, p) ∧ c = elemChunk tg nb p)
        [([107], PyVal.int 5)] cs ∧
      ([12,0,0,0,16,107,0,5,0,0,0,0] : Bytes) =
        natToLE 4 ([12,0,0,0,16,107,0,5,0,0,0,0] : Bytes).length ++ cs.flatten ++ [0] ∧
      ([12,0,0,0,16,107,0,5,0,0,0,0] : Bytes).length = 4 + (cs.map List.length).sum + 1 ∧
      ([12,0,0,0,16,107,0,5,0,0,0,0] : Bytes).getLast? = some 0 ∧
      ([12,0,0,0,16,107,0,5,0,0,0,0] : Bytes).length < 2147483648) ∧
    (∃ cs : List Bytes,
      (cs.length = [PyVal.int 7].length ∧ ∀ j, (hj : j < [PyVal.int 7].length) →
        (hj2 : j < cs.length) →
        ∃ tg p, encodeObjF dfltEncCfg 9 ([PyVal.int 7].get ⟨j, hj⟩) = .ok (tg, p) ∧
          cs.get ⟨j, hj2⟩ = elemChunk tg ((natDigits10 j).map (· + 48)) p) ∧
      ([12,0,0,0,16,48,0,7,0,0,0,0] : Bytes) =
        natToLE 4 ([12,0,0,0,16,48,0,7,0,0,0,0] : Bytes).length ++ cs.flatten ++ [0] ∧
      ([12,0,0,0,16,48,0,7,0,0,0,0] : Bytes).length = 4 + (cs.map List.length).sum + 1 ∧
      ([12,0,0,0,16,48,0,7,0,0,0,0] : Bytes).getLast? = some 0 ∧
      ([12,0,0,0,16,48,0,7,0,0,0,0] : Bytes).length < 2147483648) :=
  ⟨(claim_C5_framing.1 dfltEncCfg 9 [([107], PyVal.int 5)] 3
      [12,0,0,0,16,107,0,5,0,0,0,0] (by rfl)).2,
    (claim_C5_framing.2 dfltEncCfg 9 [PyVal.int 7] 4
      [12,0,0,0,16,48,0,7,0,0,0,0] (by rfl)).2⟩

set_option maxRecDepth 2000000 in
/-- Claim C2: the integers 0, 2^31-1, 2^31, 2^63-1, 2^63 and 2^73 select
the Int32 (tag 0x10), Int32, Int64 (tag 0x12), Int64, Binary Custom (tag
0x05, subtype 0x80) and Binary Custom wire encodings respectively (the
encoder tries signed 32-bit, then signed 64-bit, then the big-number
fallback, and does not fail on magnitude), and the encoding of each one
as the value of a document field decodes back to the original integer. -/
theorem claim_C2_integer_tiering :
    (int2bson 0 = .ok (16, [0, 0, 0, 0]) ∧
     int2bson (2 ^ 31 - 1) = .ok (16, [255, 255, 255, 127]) ∧
     int2bson (2 ^ 31) = .ok (18, [0, 0, 0, 128, 0, 0, 0, 0]) ∧
     int2bson (2 ^ 63 - 1) = .ok (18, [255, 255, 255, 255, 255, 255, 255, 127]) ∧
     int2bson (2 ^ 63) = .ok (5, [10, 0, 0, 0, 128, 0, 0, 128, 0, 0, 0, 0, 0, 0, 0]) ∧
     int2bson (2 ^ 73) =
       .ok (5, [12, 0, 0, 0, 128, 0, 0, 2, 0, 0, 0, 0, 0, 0, 0, 0, 0])) ∧
    (loads [12, 0, 0, 0, 16, 107, 0, 0, 0, 0, 0, 0] = .ok (.dict [([107], .int 0)]) ∧
     dumps (.dict [([107], .int 0)]) = .ok [12, 0, 0, 0, 16, 107, 0, 0, 0, 0, 0, 0] ∧
     loads [12, 0, 0, 0, 16, 107, 0, 255, 255, 255, 127, 0] =
       .ok (.dict [([107], .int (2 ^ 31 - 1))]) ∧
     dumps (.dict [([107], .int (2 ^ 31 - 1))]) =
       .ok [12, 0, 0, 0, 16, 107, 0, 255, 255, 255, 127, 0] ∧
     loads [16, 0, 0, 0, 18, 107, 0, 0, 0, 0, 128, 0, 0, 0, 0, 0] =
       .ok (.dict [([107], .int (2 ^ 31))]) ∧
     dumps (.dict [([107], .int (2 ^ 31))]) =
       .ok [16, 0, 0, 0, 18, 107, 0, 0, 0, 0, 128, 0, 0, 0, 0, 0] ∧
     loads [16, 0, 0, 0, 18, 107, 0, 255, 255, 255, 255, 255, 255, 255, 127, 0] =
       .ok (.dict [([107], .int (2 ^ 63 - 1))]) ∧
     dumps (.dict [([107], .int (2 ^ 63 - 1))]) =
       .ok [16, 0, 0, 0, 18, 107, 0, 255, 255, 255, 255, 255, 255, 255, 127, 0] ∧
     loads [23, 0, 0, 0, 5, 107, 0, 10, 0, 0, 0, 128, 0, 0, 128, 0, 0, 0, 0, 0, 0, 0, 0] =
       .ok (.dict [([107], .int (2 ^ 63))]) ∧
     dumps (.dict [([107], .int (2 ^ 63))]) =
       .ok [23, 0, 0, 0, 5, 107, 0, 10, 0, 0, 0, 128, 0, 0, 128, 0, 0, 0, 0, 0, 0, 0, 0] ∧
     loads [25, 0, 0, 0, 5, 107, 0, 12, 0, 0, 0, 128, 0, 0, 2, 0, 0,
         0, 0, 0, 0, 0, 0, 0, 0] =
       .ok (.dict [([107], .int (2 ^ 73))]) ∧
     dumps (.dict [([107], .int (2 ^ 73))]) =
       .ok [25, 0, 0, 0, 5, 107, 0, 12, 0, 0, 0, 128, 0, 0, 2, 0, 0,
         0, 0, 0, 0, 0, 0, 0, 0]) :=
  ⟨⟨rfl, rfl, rfl, rfl, rfl, rfl⟩,
   rfl, rfl, rfl, rfl, rfl, rfl, rfl, rfl, rfl, rfl, rfl, rfl⟩

set_option maxRecDepth 2000000 in
/-- Claim C1 (code bug): the round trip on int values is broken for
integers of more than 28 significant decimal digits.  int2bson falls back
to decimal2bson, whose mantissa is computed by Decimal arithmetic under
the default context and is therefore rounded half to even to 28
significant digits: encoding the document with field k = 2^94
(29 digits) and decoding it yields k = 2^94 - 4, not an equal value. -/
theorem claim_C1_roundtrip_loses_big_ints :
    dumps (.dict [([107], .int (2 ^ 94))]) =
      .ok [27, 0, 0, 0, 5, 107, 0, 14, 0, 0, 0, 128, 0, 0, 63, 255,
        255, 255, 255, 255, 255, 255, 255, 255, 255, 252, 0] ∧
    loads [27, 0, 0, 0, 5, 107, 0, 14, 0, 0, 0, 128, 0, 0, 63, 255,
        255, 255, 255, 255, 255, 255, 255, 255, 255, 252, 0] =
      .ok (.dict [([107], .int (2 ^ 94 - 4))]) ∧
    (2 ^ 94 - 4 : Int) ≠ 2 ^ 94 :=
  ⟨rfl, rfl, by decide⟩

theorem bindInvError {α β : Type} {x : Except Err α} {g : α → Except Err β} {e : Err}
    (h : x.bind g = .error e) : x = .error e ∨ ∃ v, x = .ok v ∧ g v = .error e := by
  cases x with
  | error e2 =>
    left
    cases h
    rfl
  | ok v => exact Or.inr ⟨v, rfl, h⟩

/-- Counterexample to claim C3 as stated: a bare scalar root does not
raise; encode(5, sink) succeeds, returns the byte count 4 and writes the
raw int32 payload to the sink. -/
theorem claim_C3_counterexample :
    encodeRun dfltEncCfg (.int 5) [] = ([[5, 0, 0, 0]], .ok 4) := rfl

/-- Claim C3 as amended: encode raises the invalid-root TypeError exactly
for bare list and tuple roots, writing nothing; any other root, including
every bare scalar, is not rejected, and whenever its payload assembly
succeeds the bare payload is written to the sink without document
framing. -/
theorem claim_C3_root_constraint_amended :
    (∀ (cfg : EncCfg) (sink : List Bytes) (xs : List PyVal),
      encodeRun cfg (.list xs) sink = (sink, .error .invalidRoot) ∧
      encodeRun cfg (.tuple xs) sink = (sink, .error .invalidRoot)) ∧
    (∀ (cfg : EncCfg) (v : PyVal) (sink : List Bytes) (t : Nat) (chunk : Bytes),
      (match v with | .list _ => False | .tuple _ => False | _ => True) →
      encodeObjF cfg pyStackLimit v = .ok (t, chunk) →
      encodeRun cfg v sink = (sink ++ [chunk], .ok chunk.length)) := by
  constructor
  · intro cfg sink xs
    exact ⟨rfl, rfl⟩
  · intro cfg v sink t chunk hv henc
    cases v <;> simp only at hv <;>
      simp [encodeRun, encodeTop, henc, bindOk]

/-- Witness for the amended C3 at a list root and at the int root 5. -/
theorem claim_C3_root_constraint_amended_witness :
    (encodeRun dfltEncCfg (.list [.int 1]) [] = ([], .error .invalidRoot) ∧
     encodeRun dfltEncCfg (.tuple [.int 1]) [] = ([], .error .invalidRoot)) ∧
    encodeRun dfltEncCfg (.int 5) [] = ([] ++ [[5, 0, 0, 0]], .ok ([5, 0, 0, 0] : Bytes).length) :=
  ⟨claim_C3_root_constraint_amended.1 dfltEncCfg [] [.int 1],
   claim_C3_root_constraint_amended.2 dfltEncCfg (.int 5) [] 16 [5, 0, 0, 0]
     trivial (by rfl)⟩

/-- Claim C9: decimal2bson fails with the overflow error exactly when the
exponent is outside the signed-byte range; within [-128, 127] the
sign / exponent header packs successfully and the overflow error cannot
arise. -/
theorem claim_C9_exponent_overflow :
    (∀ (sign : Bool) (c : Nat) (e : Int), (e < -128 ∨ 127 < e) →
      decimal2bson sign c e = .error .overflow) ∧
    (∀ (sign : Bool) (e : Int), -128 ≤ e → e ≤ 127 →
      packBb sign e = .ok [if sign then 1 else 0, (e % 256).toNat]) ∧
    (∀ (sign : Bool) (c : Nat) (e : Int), -128 ≤ e → e ≤ 127 →
      decimal2bson sign c e ≠ .error .overflow) := by
  refine ⟨?_, ?_, ?_⟩
  · intro sign c e he
    unfold decimal2bson packBb
    rw [if_neg (by omega), bindError]
  · intro sign e h1 h2
    unfold packBb
    rw [if_pos ⟨h1, h2⟩]
  · intro sign c e h1 h2 hcontra
    unfold decimal2bson packBb at hcontra
    dsimp only at hcontra
    rw [if_pos ⟨h1, h2⟩, bindOk] at hcontra
    rcases bindInvError hcontra with hp | ⟨p, hp, h⟩
    · unfold packI32 at hp
      by_cases hc : -2147483648 ≤ ((([if sign then 1 else 0, (e % 256).toNat] ++
          (chunksLE (decMant c)).reverse).length : Nat) : Int) ∧
          ((([if sign then 1 else 0, (e % 256).toNat] ++
          (chunksLE (decMant c)).reverse).length : Nat) : Int) < 2147483648
      · rw [if_pos hc] at hp
        cases hp
      · rw [if_neg hc] at hp
        cases hp
    · cases h

/-- Witness for C9 at exponent 200 (overflow) and exponent 100 (header
packs, no overflow). -/
theorem claim_C9_exponent_overflow_witness :
    decimal2bson false 1 200 = .error .overflow ∧
    packBb false 100 = .ok [if false then 1 else 0, ((100 : Int) % 256).toNat] ∧
    decimal2bson false 1 100 ≠ .error .overflow :=
  ⟨claim_C9_exponent_overflow.1 false 1 200 (by omega),
   claim_C9_exponent_overflow.2.1 false 100 (by omega) (by omega),
   claim_C9_exponent_overflow.2.2 false 1 100 (by omega) (by omega)⟩

/-- Claim C10: encode assembles the whole document in memory and performs
exactly one write to the sink, after assembly has fully succeeded: on
every encode error (of any value anywhere in the tree) the sink is
unchanged, on success the sink receives exactly one chunk; in particular
a document whose second field is unencodable fails with the
unsupported-type error and leaves the sink untouched even though its
first field was encodable. -/
theorem claim_C10_atomic_write :
    (∀ (cfg : EncCfg) (v : PyVal) (sink : List Bytes) (e : Err),
      (encodeRun cfg v sink).2 = .error e → (encodeRun cfg v sink).1 = sink) ∧
    (∀ (cfg : EncCfg) (v : PyVal) (sink : List Bytes) (n : Nat),
      (encodeRun cfg v sink).2 = .ok n →
      ∃ chunk : Bytes, (encodeRun cfg v sink).1 = sink ++ [chunk] ∧ chunk.length = n) ∧
    (∀ (sink : List Bytes) (i : Nat),
      encodeRun dfltEncCfg (.dict [([107], .int 1), ([108], .other i)]) sink =
        (sink, .error .unsupportedType)) := by
  refine ⟨?_, ?_, ?_⟩
  · intro cfg v sink e h
    unfold encodeRun at *
    cases henc : encodeTop cfg v
    · rfl
    · rw [henc] at h
      simp at h
  · intro cfg v sink n h
    unfold encodeRun at *
    cases henc : encodeTop cfg v with
    | error e =>
      rw [henc] at h
      simp at h
    | ok chunk =>
      rw [henc] at h
      exact ⟨chunk, rfl, by simpa using h⟩
  · intro sink i
    rfl

/-- Witness for C10: the error case at the two-field document with the
unencodable second field, and the success case at the one-field document
with k = 5. -/
theorem claim_C10_atomic_write_witness :
    (encodeRun dfltEncCfg (.dict [([107], .int 1), ([108], .other 0)]) []).1 =
      ([] : List Bytes) ∧
    (∃ chunk : Bytes,
      (encodeRun dfltEncCfg (.dict [([107], .int 5)]) []).1 = [] ++ [chunk] ∧
      chunk.length = 12) ∧
    encodeRun dfltEncCfg (.dict [([107], .int 1), ([108], .other 3)]) [[9]] =
      ([[9]], .error .unsupportedType) :=
  ⟨claim_C10_atomic_write.1 dfltEncCfg (.dict [([107], .int 1), ([108], .other 0)]) []
      .unsupportedType (by rfl),
   claim_C10_atomic_write.2.1 dfltEncCfg (.dict [([107], .int 5)]) [] 12 (by rfl),
   claim_C10_atomic_write.2.2 [[9]] 3⟩

theorem utf8EncodeE_ok_inv (s : PyStr) (nb : Bytes) (h : utf8EncodeE s = .ok nb) :
    (∀ c ∈ s, validScalar c = true) ∧ nb = (s.map utf8EncodeChar).flatten := by
  unfold utf8EncodeE at h
  by_cases hall : s.all validScalar
  · rw [if_pos hall] at h
    cases h
    exact ⟨fun c hc => (List.all_eq_true.mp hall) c hc, rfl⟩
  · rw [if_neg hall] at h
    cases h

theorem decodeElemsF_int32_step (cfg : DecCfg) (fuel : Nat) (k : PyStr)
    (hval : ∀ c ∈ k, validScalar c = true) (h0 : 0 ∉ k)
    (hleaf : List.lookup [16] cfg.decoders = Option.none)
    (n4 : Bytes) (hn4 : n4.length = 4) (rest : Bytes) :
    decodeElemsF cfg (fuel + 1)
      (16 :: ((k.map utf8EncodeChar).flatten ++ 0 :: (n4 ++ rest))) =
    (bson2int n4).bind fun v =>
      (decodeElemsF cfg fuel rest).bind fun l => .ok ((k, v) :: l) := by
  rw [decodeElemsF.eq_3]
  rw [parseCstr_encoded k _ hval h0, bindOk]
  dsimp only
  rw [show runParser [16] (n4 ++ rest) = .ok ((n4 ++ rest).take 4, (n4 ++ rest).drop 4)
    from rfl]
  rw [List.take_append_of_le_length (by omega), List.take_of_length_le (by omega),
    List.drop_append_of_le_length (by omega), List.drop_eq_nil_of_le (by omega),
    List.nil_append, bindOk]
  dsimp only
  rw [show decodeVal cfg (decodeElemsF cfg fuel) [16] n4 =
    (match getLeafDecoder cfg [16] with
     | some f => f n4
     | Option.none => .error .keyError) from rfl]
  rw [show getLeafDecoder cfg [16] =
    (match List.lookup [16] cfg.decoders with
     | some f => some f
     | Option.none => some bson2int) from rfl]
  rw [hleaf]

/-- Counterexample to claim C4 as stated: a well-formed array payload
whose element keys are the strings 1 and 0 (in that stream order, with
values 7 and 8) decodes to the sequence [7, 8] in stream order, not to
[8, 7] as ordering by the numeric value of the keys would demand. -/
theorem claim_C4_counterexample :
    decodeArrayCore (decodeElemsF dfltDecCfg 20)
      [16, 49, 0, 7, 0, 0, 0, 16, 48, 0, 8, 0, 0, 0] = .ok (.list [.int 7, .int 8]) ∧
    PyVal.list [PyVal.int 7, PyVal.int 8] ≠ PyVal.list [PyVal.int 8, PyVal.int 7] :=
  ⟨rfl, by simp⟩

/-- Claim C4 as amended: _decode_array returns the element values in
stream order, discarding the keys entirely (they are neither validated
nor used for ordering): the decoded sequence is the second projection of
the decoded element stream, and a two-element int32 array payload
decodes to its values in stream order for every pair of zero-free
encodable keys whatsoever. -/
theorem claim_C4_array_stream_order :
    (∀ (cfg : DecCfg) (fuel : Nat) (buf : Bytes) (l : List (PyStr × PyVal)),
      decodeElemsF cfg fuel buf = .ok l →
      decodeArrayCore (decodeElemsF cfg fuel) buf = .ok (.list (l.map Prod.snd))) ∧
    (∀ (fuel : Nat) (k1 k2 : PyStr),
      (∀ c ∈ k1, validScalar c = true) → 0 ∉ k1 →
      (∀ c ∈ k2, validScalar c = true) → 0 ∉ k2 →
      decodeArrayCore (decodeElemsF dfltDecCfg (fuel + 3))
        (16 :: ((k1.map utf8EncodeChar).flatten ++ 0 :: ([7, 0, 0, 0] ++
          16 :: ((k2.map utf8EncodeChar).flatten ++ 0 :: ([8, 0, 0, 0] ++ []))))) =
        .ok (.list [.int 7, .int 8])) := by
  constructor
  · intro cfg fuel buf l h
    unfold decodeArrayCore
    rw [h, bindOk]
  · intro fuel k1 k2 hval1 h01 hval2 h02
    unfold decodeArrayCore
    rw [decodeElemsF_int32_step dfltDecCfg (fuel + 2) k1 hval1 h01 rfl
      [7, 0, 0, 0] rfl _]
    rw [show bson2int [7, 0, 0, 0] = .ok (.int 7) from rfl, bindOk]
    rw [decodeElemsF_int32_step dfltDecCfg (fuel + 1) k2 hval2 h02 rfl
      [8, 0, 0, 0] rfl []]
    rw [show bson2int [8, 0, 0, 0] = .ok (.int 8) from rfl, bindOk]
    rw [show (fuel + 1 : Nat) = fuel.succ from rfl, decodeElemsF.eq_2]
    rfl

/-- Witness for the amended C4: the first part applied to the element
stream with keys 1 then 0, the second part applied to those same keys. -/
theorem claim_C4_array_stream_order_witness :
    decodeArrayCore (decodeElemsF dfltDecCfg 21)
      [16, 49, 0, 7, 0, 0, 0, 16, 48, 0, 8, 0, 0, 0] =
      .ok (.list ([([49], PyVal.int 7), ([48], PyVal.int 8)].map Prod.snd)) ∧
    decodeArrayCore (decodeElemsF dfltDecCfg (18 + 3))
      (16 :: ((([49] : PyStr).map utf8EncodeChar).flatten ++ 0 :: ([7, 0, 0, 0] ++
        16 :: ((([48] : PyStr).map utf8EncodeChar).flatten ++ 0 :: ([8, 0, 0, 0] ++ []))))) =
      .ok (.list [.int 7, .int 8]) :=
  ⟨claim_C4_array_stream_order.1 dfltDecCfg 21
      [16, 49, 0, 7, 0, 0, 0, 16, 48, 0, 8, 0, 0, 0]
      [([49], PyVal.int 7), ([48], PyVal.int 8)] (by rfl),
   claim_C4_array_stream_order.2 18 [49] [48]
      (by decide) (by decide) (by decide) (by decide)⟩

theorem applyRecreators_all_falsy (recs : List (List (PyStr × PyVal) → PyVal))
    (d : List (PyStr × PyVal)) (h : ∀ r ∈ recs, pyTruthy (r d) = false) :
    applyRecreators recs d = .dict d := by
  induction recs with
  | nil => rfl
  | cons r rest ih =>
    unfold applyRecreators
    rw [if_neg (by simp [h r (List.mem_cons_self r rest)])]
    exact ih fun r2 h2 => h r2 (List.mem_cons_of_mem _ h2)

theorem applyRecreators_first_truthy (rs1 : List (List (PyStr × PyVal) → PyVal))
    (r : List (PyStr × PyVal) → PyVal) (rs2 : List (List (PyStr × PyVal) → PyVal))
    (d : List (PyStr × PyVal)) (h1 : ∀ r2 ∈ rs1, pyTruthy (r2 d) = false)
    (ht : pyTruthy (r d) = true) :
    applyRecreators (rs1 ++ r :: rs2) d = r d := by
  induction rs1 with
  | nil =>
    rw [List.nil_append, applyRecreators.eq_2, if_pos ht]
  | cons r2 rest ih =>
    rw [List.cons_append, applyRecreators.eq_2]
    rw [if_neg (by simp [h1 r2 (List.mem_cons_self r2 rest)])]
    exact ih fun r3 h3 => h1 r3 (List.mem_cons_of_mem _ h3)

theorem pySlice_middle {α : Type} (l1 l2 l3 : List α) (h1 : l1.length = 4) (n : Int)
    (hn : n = 4 + l2.length) : pySlice (l1 ++ l2 ++ l3) 4 n = l2 := by
  unfold pySlice pyIdx
  rw [if_neg (by omega), if_neg (by omega)]
  have hlen : (l1 ++ l2 ++ l3).length = 4 + l2.length + l3.length := by
    simp [h1]
    omega
  have h2 : min n.toNat (l1 ++ l2 ++ l3).length = 4 + l2.length := by omega
  have h3 : min (4 : Int).toNat (l1 ++ l2 ++ l3).length = min 4 (4 + l2.length + l3.length) := by
    rw [hlen]
    rfl
  rw [h2, h3, min_eq_left (by omega)]
  have h4 : (l1 ++ l2 ++ l3).take (4 + l2.length) = l1 ++ l2 := by
    rw [show (4 : Nat) + l2.length = (l1 ++ l2).length from by simp [h1]]
    rw [List.take_left]
  rw [h4, ← h1, List.drop_left]

theorem pyDropFrom_middle {α : Type} (l1 l2 l3 : List α) (h1 : l1.length = 4) (n : Int)
    (hn : n = 4 + l2.length) : pyDropFrom (l1 ++ l2 ++ l3) n = l3 := by
  unfold pyDropFrom pyIdx
  rw [if_neg (by omega)]
  have hlen : (l1 ++ l2 ++ l3).length = 4 + l2.length + l3.length := by
    simp [h1]
    omega
  have h2 : min n.toNat (l1 ++ l2 ++ l3).length = 4 + l2.length := by omega
  rw [h2, show (4 : Nat) + l2.length = (l1 ++ l2).length from by simp [h1], List.drop_left]

theorem decodeElemsF_doc_step (cfg : DecCfg) (fuel : Nat) (k : PyStr)
    (hval : ∀ c ∈ k, validScalar c = true) (h0 : 0 ∉ k)
    (ib : Bytes) (p4 : Bytes) (rest : Bytes)
    (hp4 : packI32 ((ib.length : Int) + 5) = .ok p4) :
    decodeElemsF cfg (fuel + 1)
      (3 :: ((k.map utf8EncodeChar).flatten ++ 0 :: (p4 ++ (ib ++ [0]) ++ rest))) =
    (decodeObjCore cfg (decodeElemsF cfg fuel) ib).bind fun v =>
      (decodeElemsF cfg fuel rest).bind fun l => .ok ((k, v) :: l) := by
  have hcast : ((ib.length : Int) + 5) = ((ib.length + 5 : Nat) : Int) := by push_cast; ring
  rw [hcast] at hp4
  obtain ⟨hlt, rfl⟩ := packI32_ok_nat _ _ hp4
  rw [decodeElemsF.eq_3]
  rw [parseCstr_encoded k _ hval h0, bindOk]
  dsimp only
  rw [show runParser [3] (natToLE 4 (ib.length + 5) ++ (ib ++ [0]) ++ rest) =
    parseEmbeddedDoc (natToLE 4 (ib.length + 5) ++ (ib ++ [0]) ++ rest) from rfl]
  unfold parseEmbeddedDoc
  have htake : (natToLE 4 (ib.length + 5) ++ (ib ++ [0]) ++ rest).take 4 =
      natToLE 4 (ib.length + 5) := by
    rw [List.append_assoc, List.take_append_of_le_length (by simp [natToLE_length]),
      List.take_of_length_le (by simp [natToLE_length])]
  rw [show unpackI32From (natToLE 4 (ib.length + 5) ++ (ib ++ [0]) ++ rest) =
      .ok ((ib.length + 5 : Nat) : Int) from by
    rw [List.append_assoc]
    exact unpackI32From_exact _ _ hlt]
  rw [bindOk]
  rw [pySlice_middle _ _ _ (natToLE_length 4 _) _ (by push_cast; simp; ring)]
  rw [show checkEndZero (ib ++ [0]) = .ok () from by
    unfold checkEndZero
    rw [List.getLast?_concat, if_pos rfl]]
  rw [bindOk]
  rw [pyDropFrom_middle _ _ _ (natToLE_length 4 _) _ (by push_cast; simp; ring)]
  rw [List.dropLast_concat]
  rw [bindOk]
  rfl

/-- Counterexample to claim C7 as stated: a recreator that returns the
int 0 returns a non-absent (non-None) result, so by the claim it should
replace the mapping; the source tests the result for truthiness instead,
so the falsy 0 is ignored and decoding the empty document yields the
plain mapping, not 0. -/
theorem claim_C7_counterexample :
    decodeTop ⟨[], [fun _ => .int 0]⟩ [5, 0, 0, 0, 0] = .ok (.dict []) ∧
    PyVal.dict [] ≠ PyVal.int 0 :=
  ⟨rfl, by simp⟩

/-- Claim C7 as amended: for every nested document node, after its
elements have been fully decoded, the registered recreators are called on
the resulting mapping in registration order and the first recreator
returning a truthy result (Python truthiness: None, False, numeric
zeros and empty containers count as absent) replaces the mapping as the
decoded value; if no recreator returns a truthy result the plain mapping
is the value; and children are always fully decoded, including their own
recreator pass, before a parent sees them: the value bound to an
embedded-document element is exactly decodeObjCore applied one level
deeper. -/
theorem claim_C7_recreators :
    (∀ (cfg : DecCfg) (elems : Bytes → Except Err (List (PyStr × PyVal)))
       (buf : Bytes) (m : List (PyStr × PyVal)),
      elems buf = .ok m →
      (∀ r ∈ cfg.recreators, pyTruthy (r (dictUpdate m)) = false) →
      decodeObjCore cfg elems buf = .ok (.dict (dictUpdate m))) ∧
    (∀ (cfg : DecCfg) (elems : Bytes → Except Err (List (PyStr × PyVal)))
       (buf : Bytes) (m : List (PyStr × PyVal))
       (rs1 : List (List (PyStr × PyVal) → PyVal))
       (r : List (PyStr × PyVal) → PyVal)
       (rs2 : List (List (PyStr × PyVal) → PyVal)),
      cfg.recreators = rs1 ++ r :: rs2 →
      elems buf = .ok m →
      (∀ r2 ∈ rs1, pyTruthy (r2 (dictUpdate m)) = false) →
      pyTruthy (r (dictUpdate m)) = true →
      decodeObjCore cfg elems buf = .ok (r (dictUpdate m))) ∧
    (∀ (cfg : DecCfg) (fuel : Nat) (k : PyStr),
      (∀ c ∈ k, validScalar c = true) → 0 ∉ k →
      ∀ (ib : Bytes) (p4 : Bytes) (rest : Bytes),
      packI32 ((ib.length : Int) + 5) = .ok p4 →
      decodeElemsF cfg (fuel + 1)
        (3 :: ((k.map utf8EncodeChar).flatten ++ 0 :: (p4 ++ (ib ++ [0]) ++ rest))) =
      (decodeObjCore cfg (decodeElemsF cfg fuel) ib).bind fun v =>
        (decodeElemsF cfg fuel rest).bind fun l => .ok ((k, v) :: l)) := by
  refine ⟨?_, ?_, ?_⟩
  · intro cfg elems buf m hm hfalsy
    unfold decodeObjCore
    rw [hm, bindOk, applyRecreators_all_falsy _ _ hfalsy]
  · intro cfg elems buf m rs1 r rs2 hrecs hm hfalsy ht
    unfold decodeObjCore
    rw [hm, bindOk, hrecs, applyRecreators_first_truthy rs1 r rs2 _ hfalsy ht]
  · intro cfg fuel k hval h0 ib p4 rest hp4
    exact decodeElemsF_doc_step cfg fuel k hval h0 ib p4 rest hp4

/-- Witness for the amended C7: an all-falsy recreator list leaves the
empty document alone, a truthy recreator replaces it, and an embedded
empty document inside a one-field document passes through its own
recreator pass before the parent sees it. -/
theorem claim_C7_recreators_witness :
    decodeObjCore ⟨[], [fun _ => .int 0]⟩ (decodeElemsF ⟨[], [fun _ => .int 0]⟩ 10) [] =
      .ok (.dict (dictUpdate [])) ∧
    decodeObjCore ⟨[], [fun _ => .int 1]⟩ (decodeElemsF ⟨[], [fun _ => .int 1]⟩ 10) [] =
      .ok ((fun _ => PyVal.int 1) (dictUpdate [])) ∧
    decodeElemsF dfltDecCfg (9 + 1)
      (3 :: ((([107] : PyStr).map utf8EncodeChar).flatten ++ 0 ::
        (([5, 0, 0, 0] : Bytes) ++ (([] : Bytes) ++ [0]) ++ []))) =
      (decodeObjCore dfltDecCfg (decodeElemsF dfltDecCfg 9) []).bind fun v =>
        (decodeElemsF dfltDecCfg 9 []).bind fun l => .ok (([107], v) :: l) :=
  ⟨claim_C7_recreators.1 ⟨[], [fun _ => .int 0]⟩ _ [] [] (by rfl)
      (by intro r hr; cases hr with
          | head => rfl
          | tail _ h => cases h),
   claim_C7_recreators.2.1 ⟨[], [fun _ => .int 1]⟩ _ [] [] [] (fun _ => .int 1) []
      rfl (by rfl) (by intro r2 h2; cases h2) rfl,
   claim_C7_recreators.2.2 dfltDecCfg 9 [107] (by decide) (by decide) [] [5, 0, 0, 0] []
      (by rfl)⟩

/-- Counterexample to claim C8 as stated: a user-supplied decoder for the
one-byte document tag 0x03 is never applied (the constructor installs the
built-in _decode_obj over it after the user update), and a user-supplied
encoder for the dict kind is never consulted (_encode_obj handles
mappings before any lookup): decoding a document with an embedded empty
document under such a decoder yields the plain empty mapping, not 42,
and encoding an empty dict under such an encoder still produces the
document framing, not the user encoding. -/
theorem claim_C8_counterexample :
    (decodeTop ⟨[([3], fun _ => .ok (.int 42))], []⟩
      [13, 0, 0, 0, 3, 107, 0, 5, 0, 0, 0, 0, 0] = .ok (.dict [([107], .dict [])]) ∧
     PyVal.dict [([107], PyVal.dict [])] ≠ PyVal.dict [([107], PyVal.int 42)]) ∧
    (encodeObjF ⟨[(PyKind.dictK, fun _ => .ok (10, []))]⟩ 5 (.dict []) =
      .ok (3, [5, 0, 0, 0, 0]) ∧
     ((3, [5, 0, 0, 0, 0]) : Nat × Bytes) ≠ ((10, []) : Nat × Bytes)) :=
  ⟨⟨rfl, by simp⟩, ⟨rfl, by simp⟩⟩

/-- Claim C8 as amended: user-supplied encoder entries take precedence
over the default table for every runtime kind, and for every value that
is not a dict, list or tuple the user encoder is the function applied
(container values bypass the lookup entirely); user-supplied decoder
entries take precedence over the default table under _get_decoder, and
are the function applied for every non-structural code, including the
two-byte binary subtype codes, but the constructor overwrites any user
entry for the one-byte codes 0x03, 0x04 and 0x05 with the built-in
document, array and binary handlers; the shared default tables
(dfltEncoderFor, dfltLeafDecoder) are fixed definitions that
construction never alters. -/
theorem claim_C8_user_override :
    (∀ (cfg : EncCfg) (k : PyKind) (f : PyVal → Except Err (Nat × Bytes)),
      List.lookup k cfg.encoders = some f → getEncoder cfg k = some f) ∧
    (∀ (cfg : EncCfg) (k : PyKind),
      List.lookup k cfg.encoders = Option.none → getEncoder cfg k = dfltEncoderFor k) ∧
    (∀ (cfg : EncCfg) (fuel : Nat) (v : PyVal) (f : PyVal → Except Err (Nat × Bytes)),
      (match v with | .dict _ => False | .list _ => False | .tuple _ => False | _ => True) →
      List.lookup (pyKind v) cfg.encoders = some f →
      encodeObjF cfg (fuel + 1) v = f v) ∧
    (∀ (cfg : DecCfg) (code : Bytes) (f : Bytes → Except Err PyVal),
      List.lookup code cfg.decoders = some f → getLeafDecoder cfg code = some f) ∧
    (∀ (cfg : DecCfg) (code : Bytes),
      List.lookup code cfg.decoders = Option.none →
      getLeafDecoder cfg code = dfltLeafDecoder code) ∧
    (∀ (cfg : DecCfg) (s : Nat) (f : Bytes → Except Err PyVal) (bs : Bytes),
      List.lookup [5, s] cfg.decoders = some f → decodeBinary cfg (s :: bs) = f bs) ∧
    (∀ (cfg : DecCfg) (elems : Bytes → Except Err (List (PyStr × PyVal)))
       (code : Bytes) (bval : Bytes) (f : Bytes → Except Err PyVal),
      code ≠ [3] → code ≠ [4] → code ≠ [5] →
      getLeafDecoder cfg code = some f → decodeVal cfg elems code bval = f bval) ∧
    (∀ (cfg : DecCfg) (elems : Bytes → Except Err (List (PyStr × PyVal))) (bval : Bytes),
      decodeVal cfg elems [3] bval = decodeObjCore cfg elems bval ∧
      decodeVal cfg elems [4] bval = decodeArrayCore elems bval ∧
      decodeVal cfg elems [5] bval = decodeBinary cfg bval) := by
  refine ⟨?_, ?_, ?_, ?_, ?_, ?_, ?_, ?_⟩
  · intro cfg k f h
    unfold getEncoder
    rw [h]
  · intro cfg k h
    unfold getEncoder
    rw [h]
  · intro cfg fuel v f hv h
    cases v <;> simp only at hv <;>
      · show (match getEncoder cfg (pyKind _) with
          | some f => f _
          | Option.none => Except.error Err.unsupportedType) = _
        unfold getEncoder
        rw [h]
  · intro cfg code f h
    unfold getLeafDecoder
    rw [h]
  · intro cfg code h
    unfold getLeafDecoder
    rw [h]
  · intro cfg s f bs h
    show (match getLeafDecoder cfg [5, s] with
      | some f => f bs
      | Option.none => Except.error Err.unknownBinarySubtype) = f bs
    unfold getLeafDecoder
    rw [h]
  · intro cfg elems code bval f h3 h4 h5 hleaf
    unfold decodeVal
    rw [if_neg h3, if_neg h4, if_neg h5, hleaf]
  · intro cfg elems bval
    exact ⟨rfl, rfl, rfl⟩

/-- Witness for the amended C8: a user int encoder is found and applied,
the defaults serve kinds without user entry, a user decoder for the
binary subtype 0x07 and for the int32 tag are found and applied, and the
structural dispatch equations hold at a concrete instance. -/
theorem claim_C8_user_override_witness :
    getEncoder ⟨[(PyKind.intK, fun _ => .ok (10, []))]⟩ PyKind.intK =
      some (fun _ => .ok (10, [])) ∧
    getEncoder dfltEncCfg PyKind.boolK = dfltEncoderFor PyKind.boolK ∧
    encodeObjF ⟨[(PyKind.intK, fun _ => .ok (10, []))]⟩ (4 + 1) (.int 7) =
      (fun (_ : PyVal) => Except.ok ((10 : Nat), ([] : Bytes))) (PyVal.int 7) ∧
    getLeafDecoder ⟨[([16], fun _ => .ok (.int 9))], []⟩ [16] =
      some (fun _ => .ok (.int 9)) ∧
    getLeafDecoder dfltDecCfg [16] = dfltLeafDecoder [16] ∧
    decodeBinary ⟨[([5, 7], fun _ => .ok (.int 9))], []⟩ (7 :: [1, 2]) =
      (fun (_ : Bytes) => Except.ok (PyVal.int 9)) [1, 2] ∧
    decodeVal ⟨[([16], fun _ => .ok (.int 9))], []⟩ (decodeElemsF dfltDecCfg 5)
      [16] [7, 0, 0, 0] = (fun (_ : Bytes) => Except.ok (PyVal.int 9)) [7, 0, 0, 0] ∧
    decodeVal dfltDecCfg (decodeElemsF dfltDecCfg 5) [3] [] =
      decodeObjCore dfltDecCfg (decodeElemsF dfltDecCfg 5) [] :=
  ⟨claim_C8_user_override.1 _ PyKind.intK _ (by rfl),
   claim_C8_user_override.2.1 dfltEncCfg PyKind.boolK (by rfl),
   claim_C8_user_override.2.2.1 _ 4 (.int 7) _ trivial (by rfl),
   claim_C8_user_override.2.2.2.1 _ [16] _ (by rfl),
   claim_C8_user_override.2.2.2.2.1 dfltDecCfg [16] (by rfl),
   claim_C8_user_override.2.2.2.2.2.1 _ 7 _ [1, 2] (by rfl),
   claim_C8_user_override.2.2.2.2.2.2.1 _ _ [16] [7, 0, 0, 0] _
     (by decide) (by decide) (by decide) (by rfl),
   (claim_C8_user_override.2.2.2.2.2.2.2 dfltDecCfg (decodeElemsF dfltDecCfg 5) []).1⟩

theorem runParser_unknown (t : Nat) (buf : Bytes)
    (h : t ∉ ([1, 2, 3, 4, 5, 8, 9, 10, 16, 18] : List Nat)) :
    runParser [t] buf = .error .unknownTypeCode := by
  simp only [List.mem_cons, List.not_mem_nil, or_false, not_or] at h
  obtain ⟨h1, h2, h3, h4, h5, h8, h9, h10, h16, h18⟩ := h
  unfold runParser
  rw [if_neg (by simp [h1]), if_neg (by simp [h2]), if_neg (by simp [h3]),
    if_neg (by simp [h4]), if_neg (by simp [h5]), if_neg (by simp [h8]),
    if_neg (by simp [h9]), if_neg (by simp [h10]), if_neg (by simp [h16]),
    if_neg (by simp [h18])]

theorem dfltLeafDecoder_unassigned (s : Nat) (h0 : s ≠ 0) (h4 : s ≠ 4)
    (h128 : s ≠ 128) : dfltLeafDecoder [5, s] = Option.none := by
  unfold dfltLeafDecoder
  rw [if_neg (by simp), if_neg (by simp [h0]), if_neg (by simp [h4]),
    if_neg (by simp [h128]), if_neg (by simp), if_neg (by simp),
    if_neg (by simp), if_neg (by simp), if_neg (by simp), if_neg (by simp)]

theorem decodeBinary_unassigned (s : Nat) (bs : Bytes) (h0 : s ≠ 0) (h4 : s ≠ 4)
    (h128 : s ≠ 128) (huser : List.lookup [5, s] dfltDecCfg.decoders = Option.none) :
    decodeBinary dfltDecCfg (s :: bs) = .error .unknownBinarySubtype := by
  show (match getLeafDecoder dfltDecCfg [5, s] with
    | some f => f bs
    | Option.none => Except.error Err.unknownBinarySubtype) = _
  unfold getLeafDecoder
  rw [huser, dfltLeafDecoder_unassigned s h0 h4 h128]
theorem decode_corrupt_terminator (kvs : List (PyStr × PyVal)) (b : Bytes) (x : Nat)
    (hd : dumps (.dict kvs) = .ok b) (hx : x ≠ 0) :
    decodeTop dfltDecCfg (b.dropLast ++ [x]) = .error .malformedDocument := by
  obtain ⟨cs, hcs, hshape, hlen, hlt⟩ := dumps_dict_shape kvs b hd
  have hmidlen : b.length = 4 + cs.flatten.length + 1 := by
    have h2 := congrArg List.length hshape
    simpa [natToLE_length] using h2
  have hdrop : b.dropLast = natToLE 4 b.length ++ cs.flatten := by
    conv_lhs => rw [hshape]
    rw [List.dropLast_concat]
  rw [hdrop, List.append_assoc]
  rw [decodeTop_reduce dfltDecCfg b.length (cs.flatten ++ [x]) hlt (by omega)
    (by simp only [List.length_append, List.length_singleton]; omega)]
  rw [show checkEndZero (cs.flatten ++ [x]) = .error .malformedDocument from by
    unfold checkEndZero
    rw [List.getLast?_concat, if_neg (by simpa using hx)]]
  rfl
theorem decode_corrupt_first_tag (k : PyStr) (v : PyVal) (rest : List (PyStr × PyVal)) (b : Bytes) (t : Nat)
    (hd : dumps (.dict ((k, v) :: rest)) = .ok b) (h0 : 0 ∉ k)
    (ht : t ∉ ([1, 2, 3, 4, 5, 8, 9, 10, 16, 18] : List Nat)) :
    decodeTop dfltDecCfg (b.set 4 t) = .error .unknownTypeCode := by
  obtain ⟨cs, hcs, hshape, hlen, hlt⟩ := dumps_dict_shape _ b hd
  have hfor := encodeDictChunks_ok _ _ _ hcs
  rcases hfor with - | ⟨⟨nb, t0, p0, henc, hencv, rfl⟩, htail⟩
  obtain ⟨hvalk, rfl⟩ := utf8EncodeE_ok_inv k nb henc
  rename_i cs0
  have hflat : (elemChunk t0 (k.map utf8EncodeChar).flatten p0 :: cs0).flatten =
      t0 :: (((k.map utf8EncodeChar).flatten ++ 0 :: p0) ++ cs0.flatten) := by
    simp [elemChunk]
  have hsar := set_append_right (natToLE 4 b.length)
    (t0 :: ((((k.map utf8EncodeChar).flatten ++ 0 :: p0) ++ cs0.flatten) ++ [0])) 0 t
  simp only [natToLE_length, Nat.add_zero, List.set_cons_zero] at hsar
  have hset : b.set 4 t = natToLE 4 b.length ++
      (t :: ((((k.map utf8EncodeChar).flatten ++ 0 :: p0) ++ cs0.flatten) ++ [0])) := by
    conv_lhs => rw [hshape, hflat, List.append_assoc, List.cons_append]
    rw [hsar]
  rw [hset]
  have hblen := congrArg List.length hshape
  simp only [List.length_append, natToLE_length, hflat, List.length_cons,
    List.length_singleton] at hblen
  rw [decodeTop_reduce dfltDecCfg b.length _ hlt (by omega)
    (by simp only [List.length_cons, List.length_append, List.length_singleton]; omega)]
  rw [show (t :: ((((k.map utf8EncodeChar).flatten ++ 0 :: p0) ++ cs0.flatten) ++ [0])) =
    ((t :: (((k.map utf8EncodeChar).flatten ++ 0 :: p0) ++ cs0.flatten)) ++ [0]) from by
      simp]
  rw [show checkEndZero ((t :: (((k.map utf8EncodeChar).flatten ++ 0 :: p0) ++
      cs0.flatten)) ++ [0]) = .ok () from by
    unfold checkEndZero
    rw [List.getLast?_concat, if_pos rfl]]
  rw [bindOk, List.dropLast_concat]
  unfold decodeObjCore
  rw [show pyStackLimit = 999 + 1 from rfl, decodeElemsF.eq_3]
  rw [show ((k.map utf8EncodeChar).flatten ++ 0 :: p0) ++ cs0.flatten =
    (k.map utf8EncodeChar).flatten ++ 0 :: (p0 ++ cs0.flatten) from by simp]
  rw [parseCstr_encoded k _ hvalk h0, bindOk]
  dsimp only
  rw [runParser_unknown t _ ht]
  rfl
theorem decode_corrupt_subtype (bs : Bytes) (s : Nat) (b : Bytes)
    (hd : dumps (.dict [([107], .bytes bs)]) = .ok b)
    (hs0 : s ≠ 0) (hs4 : s ≠ 4) (hs128 : s ≠ 128) :
    decodeTop dfltDecCfg (b.set 11 s) = .error .unknownBinarySubtype := by
  obtain ⟨cs, hcs, hshape, hlen, hlt⟩ := dumps_dict_shape _ b hd
  have hfor := encodeDictChunks_ok _ _ _ hcs
  rcases hfor with - | ⟨⟨nb, t0, p0, henc, hencv, rfl⟩, htail⟩
  cases htail
  have hnb : ([107] : Bytes) = nb :=
    Except.ok.inj (show (Except.ok ([107] : Bytes) : Except Err Bytes) = .ok nb from henc)
  cases hnb
  rw [show encodeObjF dfltEncCfg 999 (([107], PyVal.bytes bs) : PyStr × PyVal).2 =
    (packI32 ((bs.length : Nat) : Int)).bind (fun p => .ok (5, p ++ [0] ++ bs))
    from rfl] at hencv
  obtain ⟨pl, hpl, hok⟩ := bindInvOk hencv
  cases hok
  obtain ⟨hbs31, rfl⟩ := packI32_ok_nat bs.length pl hpl
  have hb2 : b = (natToLE 4 b.length ++ ([5, 107, 0] ++ natToLE 4 bs.length)) ++
      (0 :: (bs ++ [0])) := by
    conv_lhs => rw [hshape]
    simp [elemChunk]
  have h11 : (11 : Nat) =
      (natToLE 4 b.length ++ ([5, 107, 0] ++ natToLE 4 bs.length)).length + 0 := by
    simp [natToLE_length]
  have hset : b.set 11 s = natToLE 4 b.length ++
      (([5, 107, 0] ++ natToLE 4 bs.length ++ (s :: bs)) ++ [0]) := by
    conv_lhs => rw [hb2, h11]
    rw [set_append_right, List.set_cons_zero]
    simp
  have hblen := congrArg List.length hshape
  simp only [List.length_append, natToLE_length, List.flatten_cons, List.flatten_nil,
    List.length_cons, List.length_singleton, List.length_nil, List.append_nil,
    elemChunk] at hblen
  rw [hset]
  rw [decodeTop_reduce dfltDecCfg b.length _ hlt (by omega)
    (by simp only [List.length_append, List.length_cons, natToLE_length,
      List.length_singleton, List.length_nil]; omega)]
  rw [show checkEndZero (([5, 107, 0] ++ natToLE 4 bs.length ++ (s :: bs)) ++ [0]) =
      .ok () from by
    unfold checkEndZero
    rw [List.getLast?_concat, if_pos rfl]]
  rw [bindOk, List.dropLast_concat]
  unfold decodeObjCore
  rw [show pyStackLimit = 999 + 1 from rfl]
  rw [show ([5, 107, 0] ++ natToLE 4 bs.length ++ (s :: bs) : Bytes) =
    5 :: (([107] : Bytes) ++ 0 :: (natToLE 4 bs.length ++ (s :: bs))) from by simp]
  rw [decodeElemsF.eq_3]
  rw [show parseCstr (([107] : Bytes) ++ 0 :: (natToLE 4 bs.length ++ (s :: bs))) =
    .ok (([107] : PyStr), natToLE 4 bs.length ++ (s :: bs)) from
    parseCstr_encoded [107] _ (by decide) (by decide)]
  rw [bindOk]
  dsimp only
  rw [show runParser [5] (natToLE 4 bs.length ++ (s :: bs)) =
    parseBinary (natToLE 4 bs.length ++ (s :: bs)) from rfl]
  unfold parseBinary
  rw [unpackI32From_exact bs.length (s :: bs) hbs31, bindOk]
  rw [show natToLE 4 bs.length ++ (s :: bs) = natToLE 4 bs.length ++ (s :: bs) ++ []
    from by simp]
  rw [pySlice_middle _ _ _ (natToLE_length 4 _) _
      (by simp only [List.length_cons]; push_cast; omega),
    pyDropFrom_middle _ _ _ (natToLE_length 4 _) _
      (by simp only [List.length_cons]; push_cast; omega)]
  rw [bindOk]
  dsimp only
  rw [show decodeVal dfltDecCfg (decodeElemsF dfltDecCfg 999) [5] (s :: bs) =
    decodeBinary dfltDecCfg (s :: bs) from rfl]
  rw [decodeBinary_unassigned s bs hs0 hs4 hs128 rfl]
  rfl

/-- Claim C6: starting from any successfully encoded document, replacing
the final byte by any non-zero value makes decode fail with the
malformed-document error; replacing the first top-level tag byte (the
byte at offset 4) by any unassigned tag value makes decode fail with the
unknown-type-code error; and, for documents holding a bytes field,
replacing the binary subtype byte by any unassigned subtype makes decode
fail with the unknown-binary-subtype error; in all three cases the
decode call returns only the error (the Except result carries no partial
document). -/
theorem claim_C6_malformed_inputs :
    (∀ (kvs : List (PyStr × PyVal)) (b : Bytes) (x : Nat),
      dumps (.dict kvs) = .ok b → x ≠ 0 →
      decodeTop dfltDecCfg (b.dropLast ++ [x]) = .error .malformedDocument) ∧
    (∀ (k : PyStr) (v : PyVal) (rest : List (PyStr × PyVal)) (b : Bytes) (t : Nat),
      dumps (.dict ((k, v) :: rest)) = .ok b → 0 ∉ k →
      t ∉ ([1, 2, 3, 4, 5, 8, 9, 10, 16, 18] : List Nat) →
      decodeTop dfltDecCfg (b.set 4 t) = .error .unknownTypeCode) ∧
    (∀ (bs : Bytes) (s : Nat) (b : Bytes),
      dumps (.dict [([107], .bytes bs)]) = .ok b → s ≠ 0 → s ≠ 4 → s ≠ 128 →
      decodeTop dfltDecCfg (b.set 11 s) = .error .unknownBinarySubtype) :=
  ⟨decode_corrupt_terminator, decode_corrupt_first_tag, decode_corrupt_subtype⟩

/-- Witness for C6 on the document with the single int field k = 5 (final
byte set to 7; first tag set to the unassigned 0x39) and on the document
with the single bytes field k = 0x01 0x02 (subtype byte set to 0x39). -/
theorem claim_C6_malformed_inputs_witness :
    decodeTop dfltDecCfg (([12, 0, 0, 0, 16, 107, 0, 5, 0, 0, 0, 0] : Bytes).dropLast ++ [7]) =
      .error .malformedDocument ∧
    decodeTop dfltDecCfg (([12, 0, 0, 0, 16, 107, 0, 5, 0, 0, 0, 0] : Bytes).set 4 57) =
      .error .unknownTypeCode ∧
    decodeTop dfltDecCfg (([15, 0, 0, 0, 5, 107, 0, 2, 0, 0, 0, 0, 1, 2, 0] : Bytes).set 11 57) =
      .error .unknownBinarySubtype :=
  ⟨claim_C6_malformed_inputs.1 [([107], .int 5)] [12, 0, 0, 0, 16, 107, 0, 5, 0, 0, 0, 0] 7
      (by rfl) (by decide),
   claim_C6_malformed_inputs.2.1 [107] (.int 5) [] [12, 0, 0, 0, 16, 107, 0, 5, 0, 0, 0, 0] 57
      (by rfl) (by decide) (by decide),
   claim_C6_malformed_inputs.2.2 [1, 2] 57 [15, 0, 0, 0, 5, 107, 0, 2, 0, 0, 0, 0, 1, 2, 0]
      (by rfl) (by decide) (by decide) (by decide)⟩
